import Mathlib

/-
Verification of the tablero inventory/order consistency core.

The relational store (tables `products`, `orders`, `order_items`,
`product_history`) is embedded as a `Store` of Lean lists, and each API
route handler that the claims mention is translated into a pure function
`Store → input → Store × Except Err output`.  SQL statements become list
operations: `SELECT ... WHERE id = x` is `List.find?`, `UPDATE ... WHERE`
is a `List.map` that rewrites matching rows, `INSERT` is an append and
`DELETE` a `List.filter`.  Where a handler returns an HTTP error before
its first write, the translated function returns the input store
unchanged together with the error, exactly mirroring the control flow of
the source.  JavaScript falsiness of `||` defaults (empty string and zero
are falsy) is modelled by the `js*` helper functions.  Timestamps and the
SERIAL ids of order items and history rows are not observable by any
claim and are omitted; monetary values are rationals, stock quantities
are integers (the columns are `DECIMAL` and `INTEGER`).
-/

namespace Tablero

/-- A row of the `products` table.  `deleted` stands for
`deleted_at IS NOT NULL`. -/
structure Product where
  id : Nat
  name : String
  price : ℚ
  cost_price : Option ℚ
  quantity : Int
  description : Option String
  barcode : Option String
  photo_url : Option String
  deleted : Bool
deriving Repr, DecidableEq

/-- A row of the `orders` table (customer fields and status). -/
structure Order where
  id : Nat
  fb_name : String
  recipient_name : String
  phone : String
  address : String
  comment : Option String
  status : String
deriving Repr, DecidableEq

/-- A row of the `order_items` table. -/
structure OrderItem where
  order_id : Nat
  product_id : Nat
  quantity : Int
  unit_price : ℚ
  courier_price : ℚ
deriving Repr, DecidableEq

/-- JSON snapshot of all product fields, as written by the
created/updated history logging. -/
structure Snapshot where
  name : String
  price : ℚ
  cost_price : Option ℚ
  quantity : Int
  description : Option String
  barcode : Option String
  photo_url : Option String
deriving Repr, DecidableEq

/-- The dual-shape `old_value` / `new_value` column of `product_history`:
a plain stringified scalar for stock events, a JSON snapshot object for
created/updated events. -/
inductive HVal where
  | scalar (s : String)
  | snap (s : Snapshot)
deriving Repr, DecidableEq

/-- A row of the `product_history` table. -/
structure HistoryEntry where
  product_id : Nat
  action : String
  field_name : Option String
  old_value : Option HVal
  new_value : Option HVal
  note : Option String
deriving Repr, DecidableEq

/-- The whole relational store.  `nextOrderId` models the SERIAL
sequence of `orders.id`. -/
structure Store where
  products : List Product
  orders : List Order
  orderItems : List OrderItem
  history : List HistoryEntry
  nextOrderId : Nat
deriving Repr, DecidableEq

/-- Structured form of the error payloads the handlers return with
status 400/404.  `VErr` are the field-specific validation messages. -/
inductive VErr where
  | fbNameRequired | fbNameTooShort | fbNameTooLong
  | recipientRequired | recipientTooShort | recipientTooLong
  | phoneRequired | phoneTooShort | phoneTooLong | phoneFormat
  | addressRequired | addressTooShort | addressTooLong
  | commentTooLong
  | itemsRequired
  | duplicateProduct
  | productIdRequired
  | quantityRange
  | unitPriceRequired | unitPriceNegative
  | courierNegative | courierTooHigh
  | productNameRequired | productNameTooShort | productNameTooLong
  | priceNegative | priceTooHigh
  | costNegative | costTooHigh | costNotLessThanPrice
  | productQuantityNegative | productQuantityTooHigh
  | barcodeTooLong | descriptionTooLong | photoUrlInvalid
  | stockQuantityNotPositive
deriving Repr, DecidableEq

inductive Err where
  | validation (v : VErr)
  | orderNotFound
  | productNotFound
  | orderProductNotFound
  | deletedProductNotFound
  | insufficientStockOrder (name : String) (inStock requested : Int)
  | insufficientStockUncancel (name : String) (inStock needed : Int)
  | insufficientStockAdjust (inStock reduceBy : Int)
deriving Repr, DecidableEq

/-- JS `String.prototype.trim`: strip leading and trailing whitespace
(written out on the character list so that it evaluates in the kernel). -/
def jsTrim (s : String) : String :=
  String.mk (((s.data.dropWhile Char.isWhitespace).reverse.dropWhile
    Char.isWhitespace).reverse)

/-- JS `s || null` for an optional string: the empty string is falsy. -/
def jsStrOrNull (v : Option String) : Option String :=
  match v with
  | some s => if s = "" then none else some s
  | none => none

/-- JS `x || null` for an optional number: zero is falsy. -/
def jsNumOrNull (v : Option ℚ) : Option ℚ :=
  match v with
  | some q => if q = 0 then none else some q
  | none => none

/-- JS `quantity || 0`: both an absent quantity and zero yield 0. -/
def jsQtyOrZero (v : Option Int) : Int := v.getD 0

/-- `SELECT quantity FROM products WHERE id = pid` (first matching row). -/
def getQty (ps : List Product) (pid : Nat) : Option Int :=
  (ps.find? (fun p => p.id == pid)).map (·.quantity)

/-- `UPDATE products SET quantity = q WHERE id = pid`. -/
def setQty (ps : List Product) (pid : Nat) (q : Int) : List Product :=
  ps.map (fun p => if p.id = pid then { p with quantity := q } else p)

/-- The `normalizeValue(val, false)` helper of the product update route:
empty string is the absent value, other strings are trimmed. -/
def normStr (v : Option String) : Option String :=
  match v with
  | some s => if s = "" then none else some (jsTrim s)
  | none => none

/-- Abstraction of JS `new URL(s)` succeeding: the string has a
scheme followed by a colon, the essential requirement of an absolute
WHATWG URL.  Only used as the pass/fail gate of photo_url validation. -/
def jsUrlParses (s : String) : Bool :=
  match s.split (fun c => c = ':') with
  | scheme :: _ :: _ => scheme ≠ "" && scheme.data.all (fun c => c.isAlpha)
  | _ => false

/-- Cost-price checks of `validateProductInput`: run only when the value
is present and not the empty string (both are covered by `none` here). -/
def checkCostPrice (price : ℚ) (cost : Option ℚ) : Option VErr :=
  match cost with
  | none => none
  | some c =>
    if c < 0 then some .costNegative
    else if c > Rat.divInt 9999999 100 then some .costTooHigh
    else if c ≥ price then some .costNotLessThanPrice
    else none

/-- Quantity checks of `validateProductInput`: run only when present. -/
def checkProductQuantity (q : Option Int) : Option VErr :=
  match q with
  | none => none
  | some n =>
    if n < 0 then some .productQuantityNegative
    else if n > 99999 then some .productQuantityTooHigh
    else none

/-- `validateProductInput` of `src/app/api/products/[id]/route.ts`
(second revision in the file).  Checks run in source order; the
`isNaN` / non-string branches are unreachable for typed input, and the
JS truthiness guard on optional strings (skip when absent or empty) is
`jsStrOrNull`. -/
def validateProductInput (name : String) (price : ℚ) (cost_price : Option ℚ)
    (quantity : Option Int) (barcode description photo_url : Option String) :
    Option VErr :=
  if name = "" then some .productNameRequired
  else if (jsTrim name).length < 2 then some .productNameTooShort
  else if name.length > 255 then some .productNameTooLong
  else if price < 0 then some .priceNegative
  else if price > Rat.divInt 9999999 100 then some .priceTooHigh
  else match checkCostPrice price cost_price with
  | some e => some e
  | none => match checkProductQuantity quantity with
    | some e => some e
    | none =>
      if (jsStrOrNull barcode).elim false (fun s => s.length > 50) then
        some .barcodeTooLong
      else if (jsStrOrNull description).elim false (fun s => s.length > 2000) then
        some .descriptionTooLong
      else if (jsStrOrNull photo_url).elim false (fun s => !jsUrlParses s) then
        some .photoUrlInvalid
      else none

/-- The PUT body of the product update route (typed JSON payload). -/
structure ProductInput where
  name : String
  price : ℚ
  cost_price : Option ℚ
  quantity : Option Int
  description : Option String
  barcode : Option String
  photo_url : Option String
deriving Repr, DecidableEq

def validateProduct (b : ProductInput) : Option VErr :=
  validateProductInput b.name b.price b.cost_price b.quantity
    b.barcode b.description b.photo_url

/-- The `oldSnapshot` of the update route: the current row's fields. -/
def snapOf (p : Product) : Snapshot :=
  ⟨p.name, p.price, p.cost_price, p.quantity, p.description, p.barcode,
    p.photo_url⟩

/-- The `newSnapshot` of the update route: the submitted values with the
JS `|| null` / `|| 0` defaults applied, exactly the values the UPDATE
statement stores. -/
def newSnap (b : ProductInput) : Snapshot :=
  ⟨b.name, b.price, jsNumOrNull b.cost_price, jsQtyOrZero b.quantity,
    jsStrOrNull b.description, jsStrOrNull b.barcode,
    jsStrOrNull b.photo_url⟩

/-- The changed-field computation of the product update route, in source
order.  Numeric fields are compared as numbers (the typed form of
`normalizeValue(·, true)`, under which distinct numbers have distinct
decimal strings), text fields through `normStr` (`normalizeValue(·,
false)`). -/
def changedFields (old : Product) (b : ProductInput) : List String :=
  (if normStr (some old.name) ≠ normStr (some b.name) then ["name"] else [])
  ++ (if old.price ≠ b.price then ["price"] else [])
  ++ (if old.cost_price ≠ jsNumOrNull b.cost_price then ["cost_price"] else [])
  ++ (if old.quantity ≠ jsQtyOrZero b.quantity then ["quantity"] else [])
  ++ (if normStr old.description ≠ normStr (jsStrOrNull b.description) then
        ["description"] else [])
  ++ (if normStr old.barcode ≠ normStr (jsStrOrNull b.barcode) then
        ["barcode"] else [])
  ++ (if normStr old.photo_url ≠ normStr (jsStrOrNull b.photo_url) then
        ["photo_url"] else [])

/-- The SET clause of the product UPDATE: the submitted values with the
JS falsy defaults, id and deletion state untouched. -/
def updProd (b : ProductInput) (p : Product) : Product :=
  { p with name := b.name, price := b.price,
           cost_price := jsNumOrNull b.cost_price,
           quantity := jsQtyOrZero b.quantity,
           description := jsStrOrNull b.description,
           barcode := jsStrOrNull b.barcode,
           photo_url := jsStrOrNull b.photo_url }

/-- PUT `src/app/api/products/[id]/route.ts` (second revision): validate,
require an active product, rewrite the row, and append one `updated`
history entry carrying both snapshots iff the normalized diff is
non-empty. -/
def updateProduct (s : Store) (pid : Nat) (b : ProductInput) :
    Store × Except Err Product :=
  match validateProduct b with
  | some v => (s, .error (.validation v))
  | none =>
    match s.products.find? (fun p => p.id == pid && !p.deleted) with
    | none => (s, .error .productNotFound)
    | some old =>
      let products1 := s.products.map (fun p =>
        if p.id == pid && !p.deleted then updProd b p else p)
      let cf := changedFields old b
      let history1 :=
        if cf = [] then s.history
        else s.history ++
          [⟨pid, "updated", some (String.intercalate "," cf),
            some (.snap (snapOf old)), some (.snap (newSnap b)), none⟩]
      ({ s with products := products1, history := history1 },
        .ok (updProd b old))

/-- POST `src/app/api/products/[id]/stock/route.ts`: manual stock
write-off.  `!quantity || quantity <= 0` collapses to `quantity ≤ 0` for
an integer payload (0 is falsy). -/
def adjustStock (s : Store) (pid : Nat) (quantity : Int)
    (note : Option String) : Store × Except Err Product :=
  if quantity ≤ 0 then (s, .error (.validation .stockQuantityNotPositive))
  else
    match s.products.find? (fun p => p.id == pid && !p.deleted) with
    | none => (s, .error .productNotFound)
    | some p =>
      let oldQ := p.quantity
      if oldQ < quantity then
        (s, .error (.insufficientStockAdjust oldQ quantity))
      else
        let newQ := oldQ - quantity
        ({ s with products := setQty s.products pid newQ,
                  history := s.history ++
                    [⟨pid, "stock_removed", some "quantity",
                      some (.scalar (toString oldQ)),
                      some (.scalar (toString newQ)), jsStrOrNull note⟩] },
          .ok { p with quantity := newQ })

/-- DELETE `src/app/api/products/[id]/permanent/route.ts`: requires the
product to be currently soft-deleted, then deletes its history rows and
the product row. -/
def permanentlyDeleteProduct (s : Store) (pid : Nat) :
    Store × Except Err Unit :=
  match s.products.find? (fun p => p.id == pid && p.deleted) with
  | none => (s, .error .deletedProductNotFound)
  | some _ =>
    ({ s with history := s.history.filter (fun e => e.product_id != pid),
              products := s.products.filter (fun p => p.id != pid) },
      .ok ())

/-- The active-products listing of GET `src/app/api/products/route.ts`
(`WHERE deleted_at IS NULL`). -/
def listActiveProducts (s : Store) : List Product :=
  s.products.filter (fun p => !p.deleted)

/-- One element of the `items` array of the order-creation body. -/
structure ItemInput where
  product_id : Nat
  quantity : Option Int
  unit_price : Option ℚ
  courier_price : Option ℚ
deriving Repr, DecidableEq

/-- The order-creation body. -/
structure OrderInput where
  fb_name : String
  recipient_name : String
  phone : String
  address : String
  comment : Option String
  items : List ItemInput
deriving Repr, DecidableEq

/-- JS `item.quantity || 1`: an absent quantity and the falsy 0 both
default to 1. -/
def itemQty (it : ItemInput) : Int :=
  match it.quantity with
  | some q => if q = 0 then 1 else q
  | none => 1

/-- `phone.replace(/\s/g, '')`. -/
def cleanPhone (s : String) : String :=
  String.mk (s.data.filter (fun c => !c.isWhitespace))

/-- The Georgian phone regex of the order route applied to the
whitespace-free phone: an optional `+995` followed by `5` and
eight further digits (spelled on the character list). -/
def georgianPhoneOk (s : String) : Bool :=
  let cs := s.data
  let core := if cs.take 4 = ['+', '9', '9', '5'] then cs.drop 4 else cs
  (core.length == 9) && (core.take 1 == ['5']) &&
    (core.all (fun c => c.isDigit))

/-- The per-item checks of `validateOrderInput` in
`src/app/api/orders/route.ts` (revision with validation). -/
def validateItem (it : ItemInput) : Option VErr :=
  if it.product_id = 0 then some .productIdRequired
  else if itemQty it < 1 ∨ itemQty it > 999 then some .quantityRange
  else match it.unit_price with
  | none => some .unitPriceRequired
  | some up =>
    if up < 0 then some .unitPriceNegative
    else match it.courier_price with
    | none => none
    | some cp =>
      if cp < 0 then some .courierNegative
      else if cp > Rat.divInt 99999 100 then some .courierTooHigh
      else none

/-- The items part of `validateOrderInput`: non-empty, no duplicate
product ids (the `Set` size comparison), then each item in order. -/
def validateItems (items : List ItemInput) : Option VErr :=
  if items.isEmpty then some .itemsRequired
  else if ¬ (items.map (·.product_id)).Nodup then some .duplicateProduct
  else items.findSome? validateItem

/-- The customer-field part of `validateOrderInput`, in source order. -/
def validateCustomer (b : OrderInput) : Option VErr :=
  if b.fb_name = "" then some .fbNameRequired
  else if (jsTrim b.fb_name).length < 2 then some .fbNameTooShort
  else if b.fb_name.length > 255 then some .fbNameTooLong
  else if b.recipient_name = "" then some .recipientRequired
  else if (jsTrim b.recipient_name).length < 2 then some .recipientTooShort
  else if b.recipient_name.length > 255 then some .recipientTooLong
  else if b.phone = "" then some .phoneRequired
  else if (cleanPhone b.phone).length < 9 then some .phoneTooShort
  else if (cleanPhone b.phone).length > 15 then some .phoneTooLong
  else if !georgianPhoneOk (cleanPhone b.phone) then some .phoneFormat
  else if b.address = "" then some .addressRequired
  else if (jsTrim b.address).length < 5 then some .addressTooShort
  else if b.address.length > 500 then some .addressTooLong
  else if (jsStrOrNull b.comment).elim false (fun c => c.length > 1000) then
    some .commentTooLong
  else none

def validateOrderInput (b : OrderInput) : Option VErr :=
  match validateCustomer b with
  | some e => some e
  | none => validateItems b.items

/-- One iteration of the pre-commit stock-check loop of order creation:
the product must exist (no soft-delete filter in the query) and have
quantity at least the requested quantity. -/
def itemFailsStock (ps : List Product) (it : ItemInput) : Option Err :=
  match ps.find? (fun p => p.id == it.product_id) with
  | none => some .orderProductNotFound
  | some p =>
    if p.quantity < itemQty it then
      some (.insufficientStockOrder p.name p.quantity (itemQty it))
    else none

/-- The whole pre-commit stock-check loop: the first failing item's
error, or `none` when every item passes. -/
def stockCheck (ps : List Product) (items : List ItemInput) : Option Err :=
  items.findSome? (itemFailsStock ps)

/-- An order item joined with its product for display
(`LEFT JOIN products` — soft-deleted products still resolve). -/
structure ItemView where
  item : OrderItem
  product_name : Option String
  product_photo_url : Option String
  product_barcode : Option String
deriving Repr, DecidableEq

def mkItemView (ps : List Product) (it : OrderItem) : ItemView :=
  let p? := ps.find? (fun p => p.id == it.product_id)
  ⟨it, p?.map (·.name), p?.bind (·.photo_url), p?.bind (·.barcode)⟩

/-- `sum + unit_price * quantity + (courier_price || 0)` over the items. -/
def orderTotal (items : List ItemView) : ℚ :=
  items.foldl
    (fun acc iv =>
      acc + iv.item.unit_price * (iv.item.quantity : ℚ) +
        iv.item.courier_price) 0

structure OrderView where
  order : Order
  items : List ItemView
  total_price : ℚ
deriving Repr, DecidableEq

/-- GET `src/app/api/orders/[id]/route.ts`: the order, its items with
product display fields, and the derived total. -/
def getOrder (s : Store) (oid : Nat) : Except Err OrderView :=
  match s.orders.find? (fun o => o.id == oid) with
  | none => .error .orderNotFound
  | some o =>
    let views := (s.orderItems.filter (fun it => it.order_id == oid)).map
      (mkItemView s.products)
    .ok ⟨o, views, orderTotal views⟩

def saleNote (oid : Nat) : String :=
  "შეკვეთა #" ++ toString oid ++ " - გაყიდვა"

def cancelNote (oid : Nat) : String :=
  "შეკვეთა #" ++ toString oid ++ " - გაუქმება"

def uncancelNote (oid : Nat) : String :=
  "შეკვეთა #" ++ toString oid ++ " - აღდგენა გაუქმებიდან"

def deleteNote (oid : Nat) : String :=
  "შეკვეთა #" ++ toString oid ++ " - წაშლა"

/-- The order row inserted by order creation (status defaults to
`pending`, comment has the `|| null` default). -/
def newOrderRow (oid : Nat) (b : OrderInput) : Order :=
  ⟨oid, b.fb_name, b.recipient_name, b.phone, b.address,
    jsStrOrNull b.comment, "pending"⟩

/-- The order-item row inserted by the commit loop: the quantity default,
the caller's unit price taken verbatim, and `courier_price || 0`. -/
def newItemRow (oid : Nat) (it : ItemInput) : OrderItem :=
  ⟨oid, it.product_id, itemQty it, it.unit_price.getD 0,
    it.courier_price.getD 0⟩

/-- The `stock_removed` history row logged by the commit loop. -/
def saleHist (oid : Nat) (it : ItemInput) (oldQ : Int) : HistoryEntry :=
  ⟨it.product_id, "stock_removed", some "quantity",
    some (.scalar (toString oldQ)),
    some (.scalar (toString (oldQ - itemQty it))), some (saleNote oid)⟩

/-- One iteration of the commit loop of order creation: insert the item
row, re-read the product quantity, decrement it and log `stock_removed`.
In the source the item INSERT precedes the SELECT of the quantity; the
SELECT reads `products`, which the INSERT does not touch, so both writes
are gathered in one record update per branch.  The `none` branch cannot
run after a passed stock check. -/
def commitStep (oid : Nat) (s : Store) (it : ItemInput) : Store :=
  match s.products.find? (fun p => p.id == it.product_id) with
  | none => { s with orderItems := s.orderItems ++ [newItemRow oid it] }
  | some p =>
    { s with orderItems := s.orderItems ++ [newItemRow oid it],
             products := setQty s.products it.product_id
               (p.quantity - itemQty it),
             history := s.history ++ [saleHist oid it p.quantity] }

/-- POST `src/app/api/orders/route.ts` (revision with validation):
validate, stock-check every item before any write, then insert the
order and commit the items, and finally re-read the created order. -/
def createOrder (s : Store) (b : OrderInput) : Store × Except Err OrderView :=
  match validateOrderInput b with
  | some v => (s, .error (.validation v))
  | none =>
    match stockCheck s.products b.items with
    | some e => (s, .error e)
    | none =>
      let oid := s.nextOrderId
      let s1 := { s with orders := s.orders ++ [newOrderRow oid b],
                         nextOrderId := oid + 1 }
      let s2 := b.items.foldl (commitStep oid) s1
      match getOrder s2 oid with
      | .ok v => (s2, .ok v)
      | .error e => (s2, .error e)

/-- One row of the item/product join used by the cancellation branches:
the item's product id and quantity together with the product's current
stock and name as selected before the write loop. -/
structure JoinRow where
  pid : Nat
  qty : Int
  cur : Int
  pname : String
deriving Repr, DecidableEq

/-- One item joined with its product row, if that row exists. -/
def joinOf (ps : List Product) (it : OrderItem) : Option JoinRow :=
  (ps.find? (fun p => p.id == it.product_id)).map
    (fun p => ⟨it.product_id, it.quantity, p.quantity, p.name⟩)

/-- The `SELECT oi.product_id, oi.quantity, p.quantity, p.name FROM
order_items oi JOIN products p ...` of the cancellation branches: an
inner join, so items whose product row is gone are dropped; there is no
soft-delete filter. -/
def joinItems (s : Store) (oid : Nat) : List JoinRow :=
  (s.orderItems.filter (fun it => it.order_id == oid)).filterMap
    (joinOf s.products)

/-- One iteration of a stock write-back loop: set the product quantity
to `f r` (computed from the pre-loop snapshot) and append one history
entry with the snapshot old value. -/
def applyRowStep (action note : String) (f : JoinRow → Int) (s : Store)
    (r : JoinRow) : Store :=
  { s with products := setQty s.products r.pid (f r),
           history := s.history ++
             [⟨r.pid, action, some "quantity",
               some (.scalar (toString r.cur)),
               some (.scalar (toString (f r))), some note⟩] }

def applyRows (action note : String) (f : JoinRow → Int) (s : Store)
    (rows : List JoinRow) : Store :=
  rows.foldl (applyRowStep action note f) s

/-- `restoreStockForOrder` of `src/app/api/orders/[id]/route.ts`: for
every item of the order, add its quantity back onto the snapshot stock
and log `stock_added`. -/
def restoreStockForOrder (s : Store) (oid : Nat) (reason : String) : Store :=
  applyRows "stock_added" reason (fun r => r.cur + r.qty) s (joinItems s oid)

/-- The final `UPDATE orders SET status = .. WHERE id = .. RETURNING *`
of the status-only path; `result[0]` exists because the order was found
at the start of the handler. -/
def finishStatus (s : Store) (oid : Nat) (st : String) :
    Store × Except Err Order :=
  let s1 := { s with orders := s.orders.map (fun o =>
                if o.id = oid then { o with status := st } else o) }
  match s1.orders.find? (fun o => o.id == oid) with
  | some o => (s1, .ok o)
  | none => (s1, .error .orderNotFound)

/-- The status-only branch of PUT `src/app/api/orders/[id]/route.ts`
(second revision): restore stock when entering `cancelled`, re-check and
re-decrement when leaving it (rejecting with the first under-stocked
product and leaving the order cancelled), then write the new status. -/
def setOrderStatus (s : Store) (oid : Nat) (newStatus : String) :
    Store × Except Err Order :=
  match s.orders.find? (fun o => o.id == oid) with
  | none => (s, .error .orderNotFound)
  | some cur =>
    let oldStatus := cur.status
    let s1 :=
      if newStatus = "cancelled" ∧ oldStatus ≠ "cancelled" then
        restoreStockForOrder s oid (cancelNote oid)
      else s
    if oldStatus = "cancelled" ∧ newStatus ≠ "cancelled" then
      let rows := joinItems s1 oid
      match rows.find? (fun r => r.cur < r.qty) with
      | some r => (s1, .error (.insufficientStockUncancel r.pname r.cur r.qty))
      | none =>
        finishStatus (applyRows "stock_removed" (uncancelNote oid)
          (fun r => r.cur - r.qty) s1 rows) oid newStatus
    else finishStatus s1 oid newStatus

/-- The full-update body of PUT `src/app/api/orders/[id]/route.ts`. -/
structure OrderFullBody where
  fb_name : String
  recipient_name : String
  phone : String
  address : String
  comment : Option String
  status : Option String
deriving Repr, DecidableEq

/-- JS `status || 'pending'`: absent, null and empty all fall back to
`pending`. -/
def jsStatusOrPending (v : Option String) : String :=
  match v with
  | some st => if st = "" then "pending" else st
  | none => "pending"

/-- The SET clause of the full-update branch: all customer fields, the
`comment || null` default and the `status || 'pending'` default. -/
def updFull (b : OrderFullBody) (o : Order) : Order :=
  { o with fb_name := b.fb_name, recipient_name := b.recipient_name,
           phone := b.phone, address := b.address,
           comment := jsStrOrNull b.comment,
           status := jsStatusOrPending b.status }

/-- The full-update branch of PUT `src/app/api/orders/[id]/route.ts`:
one UPDATE of the customer fields and status, with no stock or history
side effects. -/
def updateOrderFull (s : Store) (oid : Nat) (b : OrderFullBody) :
    Store × Except Err Order :=
  let s1 := { s with orders := s.orders.map (fun o =>
                if o.id = oid then updFull b o else o) }
  match s1.orders.find? (fun o => o.id == oid) with
  | some o => (s1, .ok o)
  | none => (s, .error .orderNotFound)

/-- DELETE `src/app/api/orders/[id]/route.ts` (second revision): restore
stock unless the order is already cancelled, then delete the order; the
item rows cascade. -/
def deleteOrder (s : Store) (oid : Nat) : Store × Except Err Unit :=
  match s.orders.find? (fun o => o.id == oid) with
  | none => (s, .error .orderNotFound)
  | some o =>
    let s1 :=
      if o.status ≠ "cancelled" then
        restoreStockForOrder s oid (deleteNote oid)
      else s
    ({ s1 with orders := s1.orders.filter (fun o2 => o2.id != oid),
               orderItems := s1.orderItems.filter
                 (fun it => it.order_id != oid) },
      .ok ())

/-- The operations of the stock-never-negative claim. -/
inductive Op where
  | create (b : OrderInput)
  | adjust (pid : Nat) (quantity : Int) (note : Option String)
  | setStatus (oid : Nat) (status : String)
deriving Repr

/-- The store after one API call (a failed call leaves the store as the
handler left it, which for this code is unchanged — proved below). -/
def stepOp (s : Store) (op : Op) : Store :=
  match op with
  | .create b => (createOrder s b).1
  | .adjust pid q n => (adjustStock s pid q n).1
  | .setStatus oid st => (setOrderStatus s oid st).1

def runOps (s : Store) (ops : List Op) : Store :=
  ops.foldl stepOp s

/-- The items of one order, `WHERE order_id = oid`. -/
def itemsOf (s : Store) (oid : Nat) : List OrderItem :=
  s.orderItems.filter (fun it => it.order_id == oid)

/-- The quantity of the (unique, under `Nodup`) item of order `oid` on
product `pid`, if any. -/
def orderItemQty (s : Store) (oid pid : Nat) : Option Int :=
  ((itemsOf s oid).find? (fun it => it.product_id == pid)).map (·.quantity)

/-- All product rows have non-negative stock. -/
def ProdsNonneg (s : Store) : Prop := ∀ p ∈ s.products, 0 ≤ p.quantity

/-- All order-item rows have non-negative quantity. -/
def ItemsNonneg (s : Store) : Prop := ∀ it ∈ s.orderItems, 0 ≤ it.quantity

def Inv (s : Store) : Prop := ProdsNonneg s ∧ ItemsNonneg s

/-- The history row written by one stock write-back iteration. -/
def rowHist (action note : String) (f : JoinRow → Int) (r : JoinRow) :
    HistoryEntry :=
  ⟨r.pid, action, some "quantity", some (.scalar (toString r.cur)),
    some (.scalar (toString (f r))), some note⟩

section ListLemmas

theorem findSome?_eq_none_iff {α β} (f : α → Option β) (l : List α) :
    l.findSome? f = none ↔ ∀ x ∈ l, f x = none := by
  induction l with
  | nil => simp [List.findSome?]
  | cons a l ih =>
    rw [List.findSome?]
    cases h : f a with
    | none => simp [h, ih]
    | some b => simp [h]

theorem findSome?_mem_of_eq_some {α β} {f : α → Option β} {l : List α} {b : β}
    (h : l.findSome? f = some b) : ∃ x ∈ l, f x = some b := by
  induction l with
  | nil => simp [List.findSome?] at h
  | cons a l ih =>
    rw [List.findSome?] at h
    cases ha : f a with
    | none =>
      rw [ha] at h
      obtain ⟨x, hx, hfx⟩ := ih h
      exact ⟨x, List.mem_cons_of_mem a hx, hfx⟩
    | some c =>
      rw [ha] at h
      simp only [] at h
      exact ⟨a, List.mem_cons_self a l, by rw [ha]; exact h⟩

theorem findSome?_isSome_of_mem {α β} {f : α → Option β} {l : List α} {x : α}
    (hx : x ∈ l) (hfx : f x ≠ none) : l.findSome? f ≠ none := by
  intro hnone
  exact hfx ((findSome?_eq_none_iff f l).mp hnone x hx)

theorem find?_append_iso {α} (p : α → Bool) (l₁ l₂ : List α) :
    (l₁ ++ l₂).find? p =
      match l₁.find? p with
      | some a => some a
      | none => l₂.find? p := by
  induction l₁ with
  | nil => simp
  | cons a l ih =>
    by_cases h : p a <;> simp [List.find?, h, ih]

end ListLemmas

section QtyLemmas

theorem getQty_cons (p : Product) (ps : List Product) (pid : Nat) :
    getQty (p :: ps) pid =
      if p.id = pid then some p.quantity else getQty ps pid := by
  simp only [getQty]
  by_cases h : p.id = pid
  · rw [List.find?_cons_of_pos _ (by simpa using h), if_pos h]
    simp
  · rw [List.find?_cons_of_neg _ (by simpa using h), if_neg h]

theorem getQty_setQty (ps : List Product) (pid pid' : Nat) (q : Int) :
    getQty (setQty ps pid q) pid' =
      if pid' = pid then (getQty ps pid').map (fun _ => q)
      else getQty ps pid' := by
  induction ps with
  | nil => simp [getQty, setQty]
  | cons p ps ih =>
    have hstep : setQty (p :: ps) pid q =
        (if p.id = pid then { p with quantity := q } else p) :: setQty ps pid q :=
      rfl
    rw [hstep]
    by_cases hp : p.id = pid
    · by_cases hp' : p.id = pid'
      · have hpp : pid' = pid := by omega
        simp [getQty_cons, hp, hp', hpp]
      · have hpp : pid' ≠ pid := by omega
        have hpp2 : pid ≠ pid' := by omega
        simp [getQty_cons, hp, hp', hpp, hpp2, ih]
    · by_cases hp' : p.id = pid'
      · have hpp : pid' ≠ pid := by omega
        simp [getQty_cons, hp, hp', hpp]
      · by_cases hpp : pid' = pid
        · subst hpp
          simp [getQty_cons, hp, hp', ih]
        · simp [getQty_cons, hp, hp', hpp, ih]

theorem setQty_nonneg {ps : List Product} {pid : Nat} {q : Int}
    (hps : ∀ p ∈ ps, 0 ≤ p.quantity) (hq : 0 ≤ q) :
    ∀ p ∈ setQty ps pid q, 0 ≤ p.quantity := by
  intro p hp
  simp only [setQty, List.mem_map] at hp
  obtain ⟨p0, hp0, rfl⟩ := hp
  by_cases h : p0.id = pid
  · simpa [h] using hq
  · simpa [h] using hps p0 hp0

end QtyLemmas

section ApplyRowsLemmas

/-- The product-list effect of a stock write-back loop, in isolation. -/
def foldSet (f : JoinRow → Int) (ps : List Product) (rows : List JoinRow) :
    List Product :=
  rows.foldl (fun acc r => setQty acc r.pid (f r)) ps

theorem applyRows_products (a n : String) (f : JoinRow → Int) :
    ∀ (rows : List JoinRow) (s : Store),
      (applyRows a n f s rows).products = foldSet f s.products rows := by
  intro rows
  induction rows with
  | nil => intro s; rfl
  | cons r rows ih =>
    intro s
    simp only [applyRows, List.foldl_cons, foldSet] at *
    exact ih _

theorem applyRows_orders (a n : String) (f : JoinRow → Int) :
    ∀ (rows : List JoinRow) (s : Store),
      (applyRows a n f s rows).orders = s.orders := by
  intro rows
  induction rows with
  | nil => intro s; rfl
  | cons r rows ih =>
    intro s
    simp only [applyRows, List.foldl_cons] at *
    rw [ih]
    rfl

theorem applyRows_orderItems (a n : String) (f : JoinRow → Int) :
    ∀ (rows : List JoinRow) (s : Store),
      (applyRows a n f s rows).orderItems = s.orderItems := by
  intro rows
  induction rows with
  | nil => intro s; rfl
  | cons r rows ih =>
    intro s
    simp only [applyRows, List.foldl_cons] at *
    rw [ih]
    rfl

theorem applyRows_nextOrderId (a n : String) (f : JoinRow → Int) :
    ∀ (rows : List JoinRow) (s : Store),
      (applyRows a n f s rows).nextOrderId = s.nextOrderId := by
  intro rows
  induction rows with
  | nil => intro s; rfl
  | cons r rows ih =>
    intro s
    simp only [applyRows, List.foldl_cons] at *
    rw [ih]
    rfl

theorem applyRows_history (a n : String) (f : JoinRow → Int) :
    ∀ (rows : List JoinRow) (s : Store),
      (applyRows a n f s rows).history =
        s.history ++ rows.map (rowHist a n f) := by
  intro rows
  induction rows with
  | nil => intro s; simp [applyRows]
  | cons r rows ih =>
    intro s
    simp only [applyRows, List.foldl_cons, List.map_cons] at *
    rw [ih]
    simp [applyRowStep, rowHist]

theorem getQty_foldSet_of_not_mem (f : JoinRow → Int) :
    ∀ (rows : List JoinRow) (ps : List Product) (pid : Nat),
      (∀ r ∈ rows, r.pid ≠ pid) →
      getQty (foldSet f ps rows) pid = getQty ps pid := by
  intro rows
  induction rows with
  | nil => intro ps pid _; rfl
  | cons r rows ih =>
    intro ps pid h
    simp only [foldSet, List.foldl_cons] at *
    rw [ih _ _ (fun r2 h2 => h r2 (List.mem_cons_of_mem r h2)),
      getQty_setQty, if_neg]
    exact fun hc => h r (List.mem_cons_self r rows) hc.symm

theorem getQty_foldSet (f : JoinRow → Int) :
    ∀ (rows : List JoinRow) (ps : List Product) (pid : Nat),
      (rows.map (·.pid)).Nodup →
      getQty (foldSet f ps rows) pid =
        match rows.find? (fun r => r.pid == pid) with
        | some r => (getQty ps pid).map (fun _ => f r)
        | none => getQty ps pid := by
  intro rows
  induction rows with
  | nil => intro ps pid _; rfl
  | cons r rows ih =>
    intro ps pid hnd
    simp only [List.map_cons, List.nodup_cons] at hnd
    obtain ⟨hr, hnd⟩ := hnd
    by_cases hpid : r.pid = pid
    · have hnone : ∀ r2 ∈ rows, r2.pid ≠ pid := by
        intro r2 h2 hc
        exact hr (by
          rw [← hpid] at hc
          exact (List.mem_map).mpr ⟨r2, h2, hc⟩)
      rw [show foldSet f ps (r :: rows) =
          foldSet f (setQty ps r.pid (f r)) rows from rfl,
        getQty_foldSet_of_not_mem f rows _ pid hnone,
        getQty_setQty, if_pos hpid.symm,
        List.find?_cons_of_pos _ (by simpa using hpid)]
    · rw [show foldSet f ps (r :: rows) =
          foldSet f (setQty ps r.pid (f r)) rows from rfl,
        ih _ pid hnd, List.find?_cons_of_neg _ (by simpa using hpid)]
      have hq : getQty (setQty ps r.pid (f r)) pid = getQty ps pid := by
        rw [getQty_setQty, if_neg (fun hc => hpid hc.symm)]
      cases hfind : rows.find? (fun r2 => r2.pid == pid) <;> simp [hq]

theorem foldSet_nonneg (f : JoinRow → Int) :
    ∀ (rows : List JoinRow) (ps : List Product),
      (∀ p ∈ ps, 0 ≤ p.quantity) → (∀ r ∈ rows, 0 ≤ f r) →
      ∀ p ∈ foldSet f ps rows, 0 ≤ p.quantity := by
  intro rows
  induction rows with
  | nil => intro ps hps _; exact hps
  | cons r rows ih =>
    intro ps hps hf
    exact ih _ (setQty_nonneg hps (hf r (List.mem_cons_self r rows)))
      (fun r2 h2 => hf r2 (List.mem_cons_of_mem r h2))

end ApplyRowsLemmas

section JoinLemmas

theorem joinOf_spec {ps : List Product} {it : OrderItem} {r : JoinRow}
    (h : joinOf ps it = some r) :
    ∃ p, ps.find? (fun p2 => p2.id == it.product_id) = some p ∧
      r = ⟨it.product_id, it.quantity, p.quantity, p.name⟩ := by
  unfold joinOf at h
  cases hf : ps.find? (fun p2 => p2.id == it.product_id) with
  | none =>
    rw [hf] at h
    exact absurd h (by simp)
  | some p =>
    rw [hf] at h
    refine ⟨p, rfl, ?_⟩
    have h2 : some (JoinRow.mk it.product_id it.quantity p.quantity p.name)
        = some r := h
    injection h2 with h3
    exact h3.symm

theorem joinItems_eq (s : Store) (oid : Nat) :
    joinItems s oid = (itemsOf s oid).filterMap (joinOf s.products) := rfl

theorem join_pids_sublist (ps : List Product) :
    ∀ L : List OrderItem,
      ((L.filterMap (joinOf ps)).map (·.pid)).Sublist
        (L.map (·.product_id)) := by
  intro L
  induction L with
  | nil => simp
  | cons it L ih =>
    rw [List.filterMap_cons]
    cases h : joinOf ps it with
    | none =>
      exact (List.map_cons _ it L) ▸ ih.cons it.product_id
    | some r =>
      have hr : r.pid = it.product_id := by
        obtain ⟨p, _, rfl⟩ := joinOf_spec h
        rfl
      simpa [hr] using ih.cons₂ it.product_id

theorem join_find? (ps : List Product) :
    ∀ (L : List OrderItem) (pid : Nat),
      (∀ it ∈ L, (ps.find? (fun p => p.id == it.product_id)).isSome) →
      (L.filterMap (joinOf ps)).find? (fun r => r.pid == pid) =
        (L.find? (fun it => it.product_id == pid)).bind (joinOf ps) := by
  intro L
  induction L with
  | nil => intro pid _; simp
  | cons it L ih =>
    intro pid hex
    have hs : (ps.find? (fun p => p.id == it.product_id)).isSome :=
      hex it (List.mem_cons_self it L)
    obtain ⟨p, hp⟩ := Option.isSome_iff_exists.mp hs
    have hj : joinOf ps it = some ⟨it.product_id, it.quantity, p.quantity, p.name⟩ := by
      rw [joinOf, hp]
      rfl
    rw [List.filterMap_cons, hj]
    by_cases hpid : it.product_id = pid
    · rw [List.find?_cons_of_pos _ (by simpa using hpid),
        List.find?_cons_of_pos _ (by simpa using hpid)]
      simp [hj]
    · rw [List.find?_cons_of_neg _ (by simpa using hpid),
        List.find?_cons_of_neg _ (by simpa using hpid)]
      exact ih pid (fun it2 h2 => hex it2 (List.mem_cons_of_mem it h2))

/-- The per-product effect of either cancellation stock loop, stated for
a general combination `g` of snapshot stock and item quantity. -/
theorem getQty_stockLoop (s : Store) (oid : Nat) (a n : String)
    (g : Int → Int → Int)
    (hnd : ((itemsOf s oid).map (·.product_id)).Nodup)
    (hex : ∀ it ∈ itemsOf s oid,
      (s.products.find? (fun p => p.id == it.product_id)).isSome)
    (pid : Nat) :
    getQty (applyRows a n (fun r => g r.cur r.qty) s (joinItems s oid)).products
        pid =
      match getQty s.products pid, orderItemQty s oid pid with
      | some q, some dq => some (g q dq)
      | some q, none => some q
      | none, _ => none := by
  have hndrows : ((joinItems s oid).map (·.pid)).Nodup :=
    hnd.sublist (joinItems_eq s oid ▸ join_pids_sublist s.products (itemsOf s oid))
  rw [applyRows_products, getQty_foldSet _ _ _ _ hndrows,
    joinItems_eq, join_find? s.products (itemsOf s oid) pid hex]
  cases hfind : (itemsOf s oid).find? (fun it => it.product_id == pid) with
  | none =>
    simp only [Option.none_bind]
    rw [show orderItemQty s oid pid = none by simp [orderItemQty, hfind]]
    cases getQty s.products pid <;> rfl
  | some it =>
    have hmem : it ∈ itemsOf s oid := List.mem_of_find?_eq_some hfind
    have hpid_it : it.product_id = pid := by
      simpa using List.find?_some hfind
    obtain ⟨p, hp⟩ := Option.isSome_iff_exists.mp (hex it hmem)
    have hj : joinOf s.products it =
        some ⟨it.product_id, it.quantity, p.quantity, p.name⟩ := by
      rw [joinOf, hp]
      rfl
    have hq : getQty s.products pid = some p.quantity := by
      rw [getQty, ← hpid_it, hp]
      rfl
    have hdq : orderItemQty s oid pid = some it.quantity := by
      simp [orderItemQty, hfind]
    simp only [Option.some_bind]
    rw [hj, hq, hdq]
    rfl

end JoinLemmas

section OrderUpdateLemmas

theorem find?_map_update (oid : Nat) (g : Order → Order)
    (hg : ∀ o, (g o).id = o.id) :
    ∀ l : List Order,
      (l.map (fun o => if o.id = oid then g o else o)).find?
          (fun o => o.id == oid) =
        (l.find? (fun o => o.id == oid)).map
          (fun o => if o.id = oid then g o else o) := by
  intro l
  induction l with
  | nil => simp
  | cons o l ih =>
    rw [List.map_cons, List.find?_cons, List.find?_cons]
    by_cases h : o.id = oid
    · simp [h, hg]
    · have hb : (o.id == oid) = false := by simpa using h
      simp [h, hb, ih]

theorem finishStatus_spec (s : Store) (oid : Nat) (st : String) (cur : Order)
    (h : s.orders.find? (fun o => o.id == oid) = some cur) :
    finishStatus s oid st =
      ({ s with orders := s.orders.map (fun o =>
          if o.id = oid then { o with status := st } else o) },
        .ok (if cur.id = oid then { cur with status := st } else cur)) := by
  simp only [finishStatus]
  rw [find?_map_update oid (fun o => { o with status := st }) (fun _ => rfl)
    s.orders, h]
  rfl

theorem finishStatus_products (s : Store) (oid : Nat) (st : String) :
    (finishStatus s oid st).1.products = s.products := by
  simp only [finishStatus]
  cases (s.orders.map (fun o =>
      if o.id = oid then { o with status := st } else o)).find?
      (fun o => o.id == oid) <;> rfl

theorem finishStatus_history (s : Store) (oid : Nat) (st : String) :
    (finishStatus s oid st).1.history = s.history := by
  simp only [finishStatus]
  cases (s.orders.map (fun o =>
      if o.id = oid then { o with status := st } else o)).find?
      (fun o => o.id == oid) <;> rfl

theorem finishStatus_orderItems (s : Store) (oid : Nat) (st : String) :
    (finishStatus s oid st).1.orderItems = s.orderItems := by
  simp only [finishStatus]
  cases (s.orders.map (fun o =>
      if o.id = oid then { o with status := st } else o)).find?
      (fun o => o.id == oid) <;> rfl

end OrderUpdateLemmas

section ValidationLemmas

theorem validateItem_none {it : ItemInput} (h : validateItem it = none) :
    1 ≤ itemQty it ∧ itemQty it ≤ 999 := by
  unfold validateItem at h
  by_cases h1 : it.product_id = 0
  · rw [if_pos h1] at h
    exact absurd h (by simp)
  · rw [if_neg h1] at h
    by_cases h2 : itemQty it < 1 ∨ itemQty it > 999
    · rw [if_pos h2] at h
      exact absurd h (by simp)
    · omega

theorem validateItems_none {items : List ItemInput}
    (h : validateItems items = none) :
    (items.map (·.product_id)).Nodup ∧ ∀ it ∈ items, validateItem it = none := by
  unfold validateItems at h
  by_cases h1 : items.isEmpty
  · rw [if_pos h1] at h
    exact absurd h (by simp)
  · rw [if_neg h1] at h
    by_cases h2 : (items.map (·.product_id)).Nodup
    · rw [if_neg (by simpa using h2)] at h
      exact ⟨h2, (findSome?_eq_none_iff _ _).mp h⟩
    · rw [if_pos (by simpa using h2)] at h
      exact absurd h (by simp)

theorem validateOrderInput_items {b : OrderInput}
    (h : validateOrderInput b = none) : validateItems b.items = none := by
  unfold validateOrderInput at h
  cases hc : validateCustomer b with
  | none => rw [hc] at h; exact h
  | some e => rw [hc] at h; exact absurd h (by simp)

theorem itemFailsStock_none {ps : List Product} {it : ItemInput}
    (h : itemFailsStock ps it = none) :
    ∃ p, ps.find? (fun p2 => p2.id == it.product_id) = some p ∧
      itemQty it ≤ p.quantity := by
  unfold itemFailsStock at h
  cases hf : ps.find? (fun p2 => p2.id == it.product_id) with
  | none =>
    simp only [hf] at h
    exact absurd h (by simp)
  | some p =>
    simp only [hf] at h
    by_cases hq : p.quantity < itemQty it
    · rw [if_pos hq] at h
      exact absurd h (by simp)
    · exact ⟨p, rfl, by omega⟩

theorem stockCheck_none {ps : List Product} {items : List ItemInput}
    (h : stockCheck ps items = none) :
    ∀ it ∈ items, itemFailsStock ps it = none :=
  (findSome?_eq_none_iff _ _).mp h

end ValidationLemmas

section InvariantLemmas

theorem commitStep_none (oid : Nat) (s : Store) (it : ItemInput)
    (hf : s.products.find? (fun p => p.id == it.product_id) = none) :
    commitStep oid s it =
      { s with orderItems := s.orderItems ++ [newItemRow oid it] } := by
  simp only [commitStep, hf]

theorem commitStep_some (oid : Nat) (s : Store) (it : ItemInput) (p : Product)
    (hf : s.products.find? (fun p2 => p2.id == it.product_id) = some p) :
    commitStep oid s it =
      { s with orderItems := s.orderItems ++ [newItemRow oid it],
               products := setQty s.products it.product_id
                 (p.quantity - itemQty it),
               history := s.history ++ [saleHist oid it p.quantity] } := by
  simp only [commitStep, hf]

theorem commitStep_orders (oid : Nat) (s : Store) (it : ItemInput) :
    (commitStep oid s it).orders = s.orders := by
  cases hf : s.products.find? (fun p => p.id == it.product_id) with
  | none => rw [commitStep_none oid s it hf]
  | some p => rw [commitStep_some oid s it p hf]

theorem commitStep_nextOrderId (oid : Nat) (s : Store) (it : ItemInput) :
    (commitStep oid s it).nextOrderId = s.nextOrderId := by
  cases hf : s.products.find? (fun p => p.id == it.product_id) with
  | none => rw [commitStep_none oid s it hf]
  | some p => rw [commitStep_some oid s it p hf]

theorem commit_fold_orders (oid : Nat) :
    ∀ (items : List ItemInput) (s : Store),
      (items.foldl (commitStep oid) s).orders = s.orders := by
  intro items
  induction items with
  | nil => intro s; rfl
  | cons it items ih =>
    intro s
    rw [List.foldl_cons, ih, commitStep_orders]

theorem commit_fold_inv (oid : Nat) :
    ∀ (items : List ItemInput) (s : Store),
      (items.map (·.product_id)).Nodup →
      (∀ it ∈ items, 1 ≤ itemQty it) →
      (∀ it ∈ items, ∀ q, getQty s.products it.product_id = some q →
        itemQty it ≤ q) →
      ProdsNonneg s → ItemsNonneg s →
      ProdsNonneg (items.foldl (commitStep oid) s) ∧
        ItemsNonneg (items.foldl (commitStep oid) s) := by
  intro items
  induction items with
  | nil => intro s _ _ _ hp hi; exact ⟨hp, hi⟩
  | cons it items ih =>
    intro s hnd hq1 hstk hp hi
    simp only [List.map_cons, List.nodup_cons] at hnd
    obtain ⟨hhead, hnd⟩ := hnd
    rw [List.foldl_cons]
    have hq1_head : 1 ≤ itemQty it := hq1 it (List.mem_cons_self it items)
    have hrest_pid : ∀ it2 ∈ items, it2.product_id ≠ it.product_id := by
      intro it2 h2 hc
      exact hhead ((List.mem_map).mpr ⟨it2, h2, hc⟩)
    have hrowq : (0:Int) ≤ (newItemRow oid it).quantity := by
      show (0:Int) ≤ itemQty it
      omega
    cases hf : s.products.find? (fun p2 => p2.id == it.product_id) with
    | none =>
      rw [commitStep_none oid s it hf]
      refine ih _ hnd (fun it2 h2 => hq1 it2 (List.mem_cons_of_mem it h2))
        (fun it2 h2 q hgq => hstk it2 (List.mem_cons_of_mem it h2) q hgq)
        hp ?_
      intro it2 h2
      rcases List.mem_append.mp h2 with h2 | h2
      · exact hi it2 h2
      · rw [List.mem_singleton.mp h2]
        exact hrowq
    | some p =>
      rw [commitStep_some oid s it p hf]
      have hgq_head : getQty s.products it.product_id = some p.quantity := by
        rw [getQty, hf]
        rfl
      have hple : itemQty it ≤ p.quantity :=
        hstk it (List.mem_cons_self it items) p.quantity hgq_head
      refine ih _ hnd (fun it2 h2 => hq1 it2 (List.mem_cons_of_mem it h2))
        ?_ ?_ ?_
      · intro it2 h2 q hgq
        refine hstk it2 (List.mem_cons_of_mem it h2) q ?_
        have hgq2 : getQty (setQty s.products it.product_id
            (p.quantity - itemQty it)) it2.product_id = some q := hgq
        rw [getQty_setQty, if_neg (hrest_pid it2 h2)] at hgq2
        exact hgq2
      · intro p2 h2
        exact setQty_nonneg hp (by omega) p2 h2
      · intro it2 h2
        rcases List.mem_append.mp h2 with h2 | h2
        · exact hi it2 h2
        · rw [List.mem_singleton.mp h2]
          exact hrowq

end InvariantLemmas

section OpCharacterization

theorem setOrderStatus_not_found (s : Store) (oid : Nat) (st : String)
    (h : s.orders.find? (fun o => o.id == oid) = none) :
    setOrderStatus s oid st = (s, .error .orderNotFound) := by
  simp only [setOrderStatus, h]

theorem setOrderStatus_into_cancel (s : Store) (oid : Nat) (cur : Order)
    (h : s.orders.find? (fun o => o.id == oid) = some cur)
    (hst : cur.status ≠ "cancelled") :
    setOrderStatus s oid "cancelled" =
      finishStatus (restoreStockForOrder s oid (cancelNote oid)) oid
        "cancelled" := by
  simp only [setOrderStatus, h]
  rw [if_neg (fun hc => hc.2 rfl), if_pos ⟨True.intro, hst⟩]

theorem setOrderStatus_uncancel (s : Store) (oid : Nat) (cur : Order)
    (target : String)
    (h : s.orders.find? (fun o => o.id == oid) = some cur)
    (hst : cur.status = "cancelled") (ht : target ≠ "cancelled") :
    setOrderStatus s oid target =
      match (joinItems s oid).find? (fun r => r.cur < r.qty) with
      | some r => (s, .error (.insufficientStockUncancel r.pname r.cur r.qty))
      | none =>
        finishStatus (applyRows "stock_removed" (uncancelNote oid)
          (fun r => r.cur - r.qty) s (joinItems s oid)) oid target := by
  simp only [setOrderStatus, h]
  rw [if_pos ⟨hst, ht⟩, if_neg (fun hc => ht hc.1)]

theorem setOrderStatus_plain (s : Store) (oid : Nat) (cur : Order)
    (target : String)
    (h : s.orders.find? (fun o => o.id == oid) = some cur)
    (hc1 : ¬ (target = "cancelled" ∧ cur.status ≠ "cancelled"))
    (hc2 : ¬ (cur.status = "cancelled" ∧ target ≠ "cancelled")) :
    setOrderStatus s oid target = finishStatus s oid target := by
  simp only [setOrderStatus, h]
  rw [if_neg hc2, if_neg hc1]

theorem joinItems_mem_spec {s : Store} {oid : Nat} {r : JoinRow}
    (h : r ∈ joinItems s oid) :
    ∃ it ∈ s.orderItems, ∃ p ∈ s.products,
      r = ⟨it.product_id, it.quantity, p.quantity, p.name⟩ := by
  rw [joinItems_eq] at h
  obtain ⟨it, hit, hj⟩ := List.mem_filterMap.mp h
  obtain ⟨p, hp, rfl⟩ := joinOf_spec hj
  exact ⟨it, List.mem_of_mem_filter hit, p, List.mem_of_find?_eq_some hp, rfl⟩

theorem restore_prodsNonneg (s : Store) (oid : Nat) (reason : String)
    (hp : ProdsNonneg s) (hi : ItemsNonneg s) :
    ProdsNonneg (restoreStockForOrder s oid reason) := by
  intro p hmem
  have hmem2 : p ∈ foldSet (fun r => r.cur + r.qty) s.products
      (joinItems s oid) := by
    rw [← applyRows_products "stock_added" reason]
    exact hmem
  refine foldSet_nonneg _ _ _ hp ?_ p hmem2
  intro r hr
  obtain ⟨it, hit, p2, hp2, rfl⟩ := joinItems_mem_spec hr
  have h1 := hp p2 hp2
  have h2 := hi it hit
  show (0:Int) ≤ p2.quantity + it.quantity
  omega

theorem restore_orderItems (s : Store) (oid : Nat) (reason : String) :
    (restoreStockForOrder s oid reason).orderItems = s.orderItems :=
  applyRows_orderItems _ _ _ _ _

theorem restore_orders (s : Store) (oid : Nat) (reason : String) :
    (restoreStockForOrder s oid reason).orders = s.orders :=
  applyRows_orders _ _ _ _ _

theorem inv_setOrderStatus (s : Store) (oid : Nat) (st : String) (h : Inv s) :
    Inv (setOrderStatus s oid st).1 := by
  obtain ⟨hp, hi⟩ := h
  cases hfind : s.orders.find? (fun o => o.id == oid) with
  | none =>
    rw [setOrderStatus_not_found s oid st hfind]
    exact ⟨hp, hi⟩
  | some cur =>
    by_cases hA : st = "cancelled" ∧ cur.status ≠ "cancelled"
    · obtain ⟨h1, h2⟩ := hA
      subst h1
      rw [setOrderStatus_into_cancel s oid cur hfind h2]
      constructor
      · intro p hpm
        rw [finishStatus_products] at hpm
        exact restore_prodsNonneg s oid (cancelNote oid) hp hi p hpm
      · intro it hit
        rw [finishStatus_orderItems, restore_orderItems] at hit
        exact hi it hit
    · by_cases hB : cur.status = "cancelled" ∧ st ≠ "cancelled"
      · obtain ⟨h1, h2⟩ := hB
        rw [setOrderStatus_uncancel s oid cur st hfind h1 h2]
        cases hchk : (joinItems s oid).find? (fun r => r.cur < r.qty) with
        | some r => exact ⟨hp, hi⟩
        | none =>
          constructor
          · intro p hpm
            rw [finishStatus_products] at hpm
            have hpm2 : p ∈ foldSet (fun r => r.cur - r.qty) s.products
                (joinItems s oid) := by
              rw [← applyRows_products "stock_removed" (uncancelNote oid)]
              exact hpm
            refine foldSet_nonneg _ _ _ hp ?_ p hpm2
            intro r hr
            have hc := List.find?_eq_none.mp hchk r hr
            simp only [decide_eq_true_eq] at hc
            show (0:Int) ≤ r.cur - r.qty
            omega
          · intro it hit
            rw [finishStatus_orderItems, applyRows_orderItems] at hit
            exact hi it hit
      · rw [setOrderStatus_plain s oid cur st hfind hA hB]
        constructor
        · intro p hpm
          rw [finishStatus_products] at hpm
          exact hp p hpm
        · intro it hit
          rw [finishStatus_orderItems] at hit
          exact hi it hit

/-- The history row written by a manual stock write-off. -/
def adjustHist (pid : Nat) (oldQ q : Int) (note : Option String) :
    HistoryEntry :=
  ⟨pid, "stock_removed", some "quantity", some (.scalar (toString oldQ)),
    some (.scalar (toString (oldQ - q))), jsStrOrNull note⟩

theorem adjustStock_nonpos (s : Store) (pid : Nat) (q : Int)
    (note : Option String) (h1 : q ≤ 0) :
    adjustStock s pid q note =
      (s, .error (.validation .stockQuantityNotPositive)) := by
  simp only [adjustStock, if_pos h1]

theorem adjustStock_no_product (s : Store) (pid : Nat) (q : Int)
    (note : Option String) (h1 : ¬ q ≤ 0)
    (hf : s.products.find? (fun p => p.id == pid && !p.deleted) = none) :
    adjustStock s pid q note = (s, .error .productNotFound) := by
  simp only [adjustStock, if_neg h1, hf]

theorem adjustStock_insufficient (s : Store) (pid : Nat) (q : Int)
    (note : Option String) (p : Product) (h1 : ¬ q ≤ 0)
    (hf : s.products.find? (fun p2 => p2.id == pid && !p2.deleted) = some p)
    (h2 : p.quantity < q) :
    adjustStock s pid q note =
      (s, .error (.insufficientStockAdjust p.quantity q)) := by
  simp only [adjustStock, if_neg h1, hf, if_pos h2]

theorem adjustStock_ok (s : Store) (pid : Nat) (q : Int)
    (note : Option String) (p : Product) (h1 : ¬ q ≤ 0)
    (hf : s.products.find? (fun p2 => p2.id == pid && !p2.deleted) = some p)
    (h2 : ¬ p.quantity < q) :
    adjustStock s pid q note =
      ({ s with products := setQty s.products pid (p.quantity - q),
                history := s.history ++ [adjustHist pid p.quantity q note] },
        .ok { p with quantity := p.quantity - q }) := by
  simp only [adjustStock, if_neg h1, hf, if_neg h2, adjustHist]

theorem inv_adjustStock (s : Store) (pid : Nat) (q : Int)
    (note : Option String) (h : Inv s) : Inv (adjustStock s pid q note).1 := by
  obtain ⟨hp, hi⟩ := h
  by_cases h1 : q ≤ 0
  · rw [adjustStock_nonpos s pid q note h1]
    exact ⟨hp, hi⟩
  · cases hf : s.products.find? (fun p2 => p2.id == pid && !p2.deleted) with
    | none =>
      rw [adjustStock_no_product s pid q note h1 hf]
      exact ⟨hp, hi⟩
    | some p =>
      by_cases h2 : p.quantity < q
      · rw [adjustStock_insufficient s pid q note p h1 hf h2]
        exact ⟨hp, hi⟩
      · rw [adjustStock_ok s pid q note p h1 hf h2]
        constructor
        · intro p2 hm
          exact setQty_nonneg hp (by omega) p2 hm
        · exact hi

theorem createOrder_commit_found (s : Store) (b : OrderInput) :
    ∃ o, ((b.items.foldl (commitStep s.nextOrderId)
        { s with orders := s.orders ++ [newOrderRow s.nextOrderId b],
                 nextOrderId := s.nextOrderId + 1 }).orders).find?
        (fun o2 => o2.id == s.nextOrderId) = some o := by
  rw [commit_fold_orders]
  have horders : ({ s with
      orders := s.orders ++ [newOrderRow s.nextOrderId b],
      nextOrderId := s.nextOrderId + 1 } : Store).orders =
      s.orders ++ [newOrderRow s.nextOrderId b] := rfl
  rw [horders, find?_append_iso]
  cases h : s.orders.find? (fun o2 => o2.id == s.nextOrderId) with
  | some a => exact ⟨a, rfl⟩
  | none =>
    refine ⟨newOrderRow s.nextOrderId b, ?_⟩
    rw [List.find?_cons]
    simp [newOrderRow]

theorem inv_createOrder (s : Store) (b : OrderInput) (h : Inv s) :
    Inv (createOrder s b).1 := by
  obtain ⟨hp, hi⟩ := h
  unfold createOrder
  cases hval : validateOrderInput b with
  | some v => exact ⟨hp, hi⟩
  | none =>
    cases hchk : stockCheck s.products b.items with
    | some e => exact ⟨hp, hi⟩
    | none =>
      obtain ⟨hnd, hitems⟩ := validateItems_none (validateOrderInput_items hval)
      have hbounds : ∀ it ∈ b.items, 1 ≤ itemQty it :=
        fun it hmem => (validateItem_none (hitems it hmem)).1
      have hstk : ∀ it ∈ b.items, ∀ q,
          getQty s.products it.product_id = some q → itemQty it ≤ q := by
        intro it hmem q hgq
        obtain ⟨p, hfp, hle⟩ := itemFailsStock_none (stockCheck_none hchk it hmem)
        rw [getQty, hfp] at hgq
        have : p.quantity = q := by
          injection hgq
        omega
      have hinv2 := commit_fold_inv s.nextOrderId b.items
        { s with orders := s.orders ++ [newOrderRow s.nextOrderId b],
                 nextOrderId := s.nextOrderId + 1 }
        hnd hbounds hstk hp hi
      obtain ⟨o, ho⟩ := createOrder_commit_found s b
      simp only [getOrder, ho]
      exact hinv2

/-- The validation-failure exit of order creation. -/
theorem createOrder_invalid (s : Store) (b : OrderInput) (v : VErr)
    (hval : validateOrderInput b = some v) :
    createOrder s b = (s, .error (.validation v)) := by
  simp only [createOrder, hval]

/-- The stock-check-failure exit of order creation: before any write. -/
theorem createOrder_stockfail (s : Store) (b : OrderInput) (e : Err)
    (hval : validateOrderInput b = none)
    (hchk : stockCheck s.products b.items = some e) :
    createOrder s b = (s, .error e) := by
  simp only [createOrder, hval, hchk]

/-- The success exit of order creation: the committed store and an `ok`
response. -/
theorem createOrder_ok (s : Store) (b : OrderInput)
    (hval : validateOrderInput b = none)
    (hchk : stockCheck s.products b.items = none) :
    ∃ v, createOrder s b =
      (b.items.foldl (commitStep s.nextOrderId)
        { s with orders := s.orders ++ [newOrderRow s.nextOrderId b],
                 nextOrderId := s.nextOrderId + 1 }, .ok v) := by
  obtain ⟨o, ho⟩ := createOrder_commit_found s b
  simp only [createOrder, hval, hchk, getOrder, ho]
  exact ⟨_, rfl⟩

theorem createOrder_error_unchanged (s : Store) (b : OrderInput) (e : Err)
    (h : (createOrder s b).2 = .error e) : (createOrder s b).1 = s := by
  cases hval : validateOrderInput b with
  | some v => rw [createOrder_invalid s b v hval]
  | none =>
    cases hchk : stockCheck s.products b.items with
    | some e2 => rw [createOrder_stockfail s b e2 hval hchk]
    | none =>
      obtain ⟨v, hv⟩ := createOrder_ok s b hval hchk
      rw [hv] at h
      exact absurd h (by simp)

theorem finishStatus_isOk (s : Store) (oid : Nat) (st : String) (cur : Order)
    (h : s.orders.find? (fun o => o.id == oid) = some cur) :
    ∃ o, (finishStatus s oid st).2 = .ok o := by
  rw [finishStatus_spec s oid st cur h]
  exact ⟨_, rfl⟩

theorem setOrderStatus_error_unchanged (s : Store) (oid : Nat) (st : String)
    (e : Err) (h : (setOrderStatus s oid st).2 = .error e) :
    (setOrderStatus s oid st).1 = s := by
  cases hfind : s.orders.find? (fun o => o.id == oid) with
  | none => rw [setOrderStatus_not_found s oid st hfind]
  | some cur =>
    by_cases hA : st = "cancelled" ∧ cur.status ≠ "cancelled"
    · obtain ⟨h1, h2⟩ := hA
      subst h1
      rw [setOrderStatus_into_cancel s oid cur hfind h2] at h
      obtain ⟨o, ho⟩ := finishStatus_isOk (restoreStockForOrder s oid
        (cancelNote oid)) oid "cancelled" cur
        (by rw [restore_orders]; exact hfind)
      rw [ho] at h
      exact absurd h (by simp)
    · by_cases hB : cur.status = "cancelled" ∧ st ≠ "cancelled"
      · obtain ⟨h1, h2⟩ := hB
        rw [setOrderStatus_uncancel s oid cur st hfind h1 h2] at h ⊢
        cases hchk : (joinItems s oid).find? (fun r => r.cur < r.qty) with
        | some r => rfl
        | none =>
          rw [hchk] at h
          obtain ⟨o, ho⟩ := finishStatus_isOk (applyRows "stock_removed"
            (uncancelNote oid) (fun r => r.cur - r.qty) s (joinItems s oid))
            oid st cur (by rw [applyRows_orders]; exact hfind)
          simp only [] at h
          rw [ho] at h
          exact absurd h (by simp)
      · rw [setOrderStatus_plain s oid cur st hfind hA hB] at h
        obtain ⟨o, ho⟩ := finishStatus_isOk s oid st cur hfind
        rw [ho] at h
        exact absurd h (by simp)

theorem adjustStock_error_unchanged (s : Store) (pid : Nat) (q : Int)
    (note : Option String) (e : Err)
    (h : (adjustStock s pid q note).2 = .error e) :
    (adjustStock s pid q note).1 = s := by
  by_cases h1 : q ≤ 0
  · rw [adjustStock_nonpos s pid q note h1]
  · cases hf : s.products.find? (fun p2 => p2.id == pid && !p2.deleted) with
    | none => rw [adjustStock_no_product s pid q note h1 hf]
    | some p =>
      by_cases h2 : p.quantity < q
      · rw [adjustStock_insufficient s pid q note p h1 hf h2]
      · rw [adjustStock_ok s pid q note p h1 hf h2] at h
        exact absurd h (by simp)

theorem inv_stepOp (s : Store) (op : Op) (h : Inv s) : Inv (stepOp s op) := by
  cases op with
  | create b => exact inv_createOrder s b h
  | adjust pid q note => exact inv_adjustStock s pid q note h
  | setStatus oid st => exact inv_setOrderStatus s oid st h

theorem inv_runOps (ops : List Op) :
    ∀ s : Store, Inv s → Inv (runOps s ops) := by
  induction ops with
  | nil => intro s h; exact h
  | cons op ops ih =>
    intro s h
    exact ih _ (inv_stepOp s op h)

theorem joinItems_mem_spec2 {s : Store} {oid : Nat} {r : JoinRow}
    (h : r ∈ joinItems s oid) :
    ∃ it ∈ itemsOf s oid, ∃ p,
      s.products.find? (fun p2 => p2.id == it.product_id) = some p ∧
      r = ⟨it.product_id, it.quantity, p.quantity, p.name⟩ := by
  rw [joinItems_eq] at h
  obtain ⟨it, hit, hj⟩ := List.mem_filterMap.mp h
  obtain ⟨p, hp, rfl⟩ := joinOf_spec hj
  exact ⟨it, hit, p, hp, rfl⟩

theorem updateOrderFull_spec (s : Store) (oid : Nat) (b : OrderFullBody)
    (cur : Order) (hfind : s.orders.find? (fun o => o.id == oid) = some cur) :
    updateOrderFull s oid b =
      ({ s with orders := s.orders.map (fun o =>
          if o.id = oid then updFull b o else o) }, .ok (updFull b cur)) := by
  have hid : cur.id = oid := by simpa using List.find?_some hfind
  simp only [updateOrderFull]
  rw [find?_map_update oid (updFull b) (fun o => rfl) s.orders, hfind]
  simp [hid]

theorem updateOrderFull_products (s : Store) (oid : Nat) (b : OrderFullBody) :
    (updateOrderFull s oid b).1.products = s.products := by
  simp only [updateOrderFull]
  cases (s.orders.map (fun o => if o.id = oid then updFull b o else o)).find?
      (fun o => o.id == oid) <;> rfl

theorem updateOrderFull_history (s : Store) (oid : Nat) (b : OrderFullBody) :
    (updateOrderFull s oid b).1.history = s.history := by
  simp only [updateOrderFull]
  cases (s.orders.map (fun o => if o.id = oid then updFull b o else o)).find?
      (fun o => o.id == oid) <;> rfl

theorem updateOrderFull_orderItems (s : Store) (oid : Nat)
    (b : OrderFullBody) :
    (updateOrderFull s oid b).1.orderItems = s.orderItems := by
  simp only [updateOrderFull]
  cases (s.orders.map (fun o => if o.id = oid then updFull b o else o)).find?
      (fun o => o.id == oid) <;> rfl

theorem deleteOrder_live (s : Store) (oid : Nat) (o : Order)
    (ho : s.orders.find? (fun o2 => o2.id == oid) = some o)
    (hst : o.status ≠ "cancelled") :
    deleteOrder s oid =
      ({ restoreStockForOrder s oid (deleteNote oid) with
          orders := (restoreStockForOrder s oid
            (deleteNote oid)).orders.filter (fun o2 => o2.id != oid),
          orderItems := (restoreStockForOrder s oid
            (deleteNote oid)).orderItems.filter
              (fun it => it.order_id != oid) }, .ok ()) := by
  simp only [deleteOrder, ho]
  rw [if_pos hst]

theorem deleteOrder_cancelled (s : Store) (oid : Nat) (o : Order)
    (ho : s.orders.find? (fun o2 => o2.id == oid) = some o)
    (hst : o.status = "cancelled") :
    deleteOrder s oid =
      ({ s with orders := s.orders.filter (fun o2 => o2.id != oid),
                orderItems := s.orderItems.filter
                  (fun it => it.order_id != oid) }, .ok ()) := by
  simp only [deleteOrder, ho]
  rw [if_neg (not_not_intro hst)]

theorem find?_filter_id_ne (l : List Order) (oid : Nat) :
    (l.filter (fun o => o.id != oid)).find? (fun o => o.id == oid) = none := by
  rw [List.find?_eq_none]
  intro x hx
  have hmem := List.of_mem_filter hx
  simp only [bne_iff_ne, ne_eq] at hmem
  simp [hmem]

theorem filter_order_id_ne (l : List OrderItem) (oid : Nat) :
    (l.filter (fun it => it.order_id != oid)).filter
      (fun it => it.order_id == oid) = [] := by
  induction l with
  | nil => rfl
  | cons it l ih =>
    by_cases h : it.order_id = oid <;> simp [List.filter_cons, h, ih]

theorem find?_filter_pid_ne (l : List Product) (pid : Nat) :
    (l.filter (fun p => p.id != pid)).find? (fun p => p.id == pid) = none := by
  rw [List.find?_eq_none]
  intro x hx
  have hmem := List.of_mem_filter hx
  simp only [bne_iff_ne, ne_eq] at hmem
  simp [hmem]

end OpCharacterization

section SampleData

/-- An active product with stock 10, for concrete witnesses. -/
def prodA : Product := ⟨1, "Product A", 20, none, 10, none, none, none, false⟩

def storeA : Store := ⟨[prodA], [], [], [], 1⟩

/-- A soft-deleted product with stock 5. -/
def prodDeleted1 : Product := ⟨1, "P", 20, none, 5, none, none, none, true⟩

def storeC6 : Store := ⟨[prodDeleted1], [], [], [], 1⟩

/-- A valid order body referencing product 1 with quantity 1. -/
def bodyC6 : OrderInput :=
  ⟨"anna k", "anna k", "555123456", "tbilisi 1", none,
    [⟨1, some 1, some 20, none⟩]⟩

/-- A soft-deleted product with one history row, for permanent delete. -/
def prodDel2 : Product := ⟨2, "Old product", 15, none, 3, none, none, none,
  true⟩

def storeDel2 : Store :=
  ⟨[prodDel2], [], [], [⟨2, "created", none, none, none, none⟩], 1⟩

/-- A cancelled order for product 1 (quantity 3), stock already restored
to 5. -/
def orderCancelled : Order :=
  ⟨1, "anna k", "anna k", "555123456", "tbilisi 1", none, "cancelled"⟩

def prodB : Product := ⟨1, "P", 20, none, 5, none, none, none, false⟩

def itemB : OrderItem := ⟨1, 1, 3, 20, 0⟩

def storeCancelled : Store := ⟨[prodB], [orderCancelled], [itemB], [], 2⟩

/-- A full-update body whose status field moves the order to `pending`. -/
def bodyFull : OrderFullBody :=
  ⟨"anna k", "anna k", "555123456", "tbilisi 1", none, some "pending"⟩

/-- A shipped order, for the status-reset witness. -/
def orderShipped : Order :=
  ⟨1, "anna k", "anna k", "555123456", "tbilisi 1", none, "shipped"⟩

def storeShipped : Store := ⟨[prodB], [orderShipped], [itemB], [], 2⟩

/-- A full-update body with an empty status field. -/
def bodyNoStatus : OrderFullBody :=
  ⟨"anna k", "anna k", "555123456", "tbilisi 1", none, none⟩

end SampleData

/-- C7: on an existing active product with quantity Q and a positive
integer reduceBy, adjust_stock fails with the insufficient-stock error
iff reduceBy exceeds Q; on that failure the store (quantity and history)
is unchanged; on success the quantity becomes Q - reduceBy and exactly
one `stock_removed` history entry is appended whose old/new values are
the plain stringified quantities and whose note is the caller's note
(with the JS `|| null` default for an absent or empty note). -/
theorem claim7_adjust_stock_contract (s : Store) (pid : Nat) (r : Int)
    (note : Option String) (p : Product) (hr : 0 < r)
    (hf : s.products.find? (fun p2 => p2.id == pid && !p2.deleted) = some p) :
    ((∃ a b, (adjustStock s pid r note).2 =
        .error (.insufficientStockAdjust a b)) ↔ p.quantity < r)
    ∧ (p.quantity < r → (adjustStock s pid r note).1 = s)
    ∧ (r ≤ p.quantity →
        adjustStock s pid r note =
          ({ s with products := setQty s.products pid (p.quantity - r),
                    history := s.history ++
                      [⟨pid, "stock_removed", some "quantity",
                        some (.scalar (toString p.quantity)),
                        some (.scalar (toString (p.quantity - r))),
                        jsStrOrNull note⟩] },
            .ok { p with quantity := p.quantity - r })) := by
  have h1 : ¬ r ≤ 0 := by omega
  by_cases h2 : p.quantity < r
  · have hins := adjustStock_insufficient s pid r note p h1 hf h2
    refine ⟨⟨fun _ => h2, fun _ => ⟨p.quantity, r, by rw [hins]⟩⟩,
      fun _ => by rw [hins], fun hle => absurd hle (by omega)⟩
  · have hok := adjustStock_ok s pid r note p h1 hf h2
    refine ⟨⟨?_, fun hlt => absurd hlt h2⟩, fun hlt => absurd hlt h2, ?_⟩
    · rintro ⟨a, b, habs⟩
      rw [hok] at habs
      exact absurd habs (by simp)
    · intro _
      rw [hok]
      rfl

/-- Witness for C7 at a concrete store: reducing by 15 with stock 10
fails and leaves the store unchanged; reducing by 4 succeeds with the
expected store. -/
theorem claim7_adjust_stock_contract_witness :
    (adjustStock storeA 1 15 (some "damaged")).1 = storeA ∧
    adjustStock storeA 1 4 (some "damaged") =
      ({ storeA with products := setQty storeA.products 1 (10 - 4),
                     history := storeA.history ++
                       [⟨1, "stock_removed", some "quantity",
                         some (.scalar (toString (10:Int))),
                         some (.scalar (toString ((10:Int) - 4))),
                         jsStrOrNull (some "damaged")⟩] },
        .ok { prodA with quantity := 10 - 4 }) :=
  ⟨(claim7_adjust_stock_contract storeA 1 15 (some "damaged") prodA
      (by decide) (by decide)).2.1 (by decide),
    (claim7_adjust_stock_contract storeA 1 4 (some "damaged") prodA
      (by decide) (by decide)).2.2 (by decide)⟩

/-- C9: permanently deleting a product that is not currently
soft-deleted (active or missing) fails with the not-found error and
leaves the whole store unchanged; when the product is soft-deleted, all
of its history rows are deleted and then its product row, and the call
succeeds. -/
theorem claim9_permanent_delete_precondition (s : Store) (pid : Nat) :
    (s.products.find? (fun p => p.id == pid && p.deleted) = none →
      permanentlyDeleteProduct s pid = (s, .error .deletedProductNotFound))
    ∧ (∀ p, s.products.find? (fun p2 => p2.id == pid && p2.deleted) = some p →
        permanentlyDeleteProduct s pid =
          ({ s with
              history := s.history.filter (fun e => e.product_id != pid),
              products := s.products.filter (fun p2 => p2.id != pid) },
            .ok ())
        ∧ (∀ e ∈ (permanentlyDeleteProduct s pid).1.history,
            e.product_id ≠ pid)
        ∧ (permanentlyDeleteProduct s pid).1.products.find?
            (fun p2 => p2.id == pid) = none) := by
  constructor
  · intro h
    simp only [permanentlyDeleteProduct, h]
  · intro p hp
    have heq : permanentlyDeleteProduct s pid =
        ({ s with
            history := s.history.filter (fun e => e.product_id != pid),
            products := s.products.filter (fun p2 => p2.id != pid) },
          .ok ()) := by
      simp only [permanentlyDeleteProduct, hp]
    refine ⟨heq, ?_, ?_⟩
    · intro e he
      rw [heq] at he
      have hmem := List.of_mem_filter he
      simp only [bne_iff_ne] at hmem
      exact hmem
    · rw [heq]
      exact find?_filter_pid_ne s.products pid

/-- Witness for C9: on an active product the call fails and changes
nothing; on a soft-deleted product its history rows disappear. -/
theorem claim9_permanent_delete_precondition_witness :
    permanentlyDeleteProduct storeA 1 = (storeA, .error .deletedProductNotFound)
    ∧ (∀ e ∈ (permanentlyDeleteProduct storeDel2 2).1.history,
        e.product_id ≠ 2) :=
  ⟨(claim9_permanent_delete_precondition storeA 1).1 (by decide),
    ((claim9_permanent_delete_precondition storeDel2 2).2 prodDel2
      (by decide)).2.1⟩

/-- C10: on the full-update path, when the payload's status is absent or
empty, the order's status is overwritten to `pending` regardless of its
previous value: the response order and the stored row both read
`pending`. -/
theorem claim10_full_update_resets_status (s : Store) (oid : Nat)
    (b : OrderFullBody) (cur : Order)
    (hfind : s.orders.find? (fun o => o.id == oid) = some cur)
    (hst : b.status = none ∨ b.status = some "") :
    (updateOrderFull s oid b).2 = .ok (updFull b cur)
    ∧ (updFull b cur).status = "pending"
    ∧ ((updateOrderFull s oid b).1.orders.find?
        (fun o2 => o2.id == oid)).map (·.status) = some "pending" := by
  have hspec := updateOrderFull_spec s oid b cur hfind
  have hpend : jsStatusOrPending b.status = "pending" := by
    rcases hst with h | h <;> simp [jsStatusOrPending, h]
  have hid : cur.id = oid := by simpa using List.find?_some hfind
  refine ⟨by rw [hspec], hpend, ?_⟩
  rw [hspec]
  have horders : (({ s with orders := s.orders.map (fun o =>
      if o.id = oid then updFull b o else o) }, (Except.ok (updFull b cur) :
      Except Err Order)) : Store × Except Err Order).1.orders =
      s.orders.map (fun o => if o.id = oid then updFull b o else o) := rfl
  rw [horders, find?_map_update oid (updFull b) (fun o => rfl) s.orders,
    hfind]
  show some ((if cur.id = oid then updFull b cur else cur).status) =
    some "pending"
  rw [if_pos hid]
  show some (jsStatusOrPending b.status) = some "pending"
  rw [hpend]

/-- Witness for C10: updating only customer fields of a shipped order
(status field absent) silently resets its status to pending. -/
theorem claim10_full_update_resets_status_witness :
    ((updateOrderFull storeShipped 1 bodyNoStatus).1.orders.find?
        (fun o2 => o2.id == 1)).map (·.status) = some "pending" :=
  (claim10_full_update_resets_status storeShipped 1 bodyNoStatus
    orderShipped (by decide) (Or.inl (by decide))).2.2

/-- C4 (amended): the cancellation/un-cancellation stock side effects run
only on the status-only update path; a full-update call that bundles a
status change with customer fields overwrites the status without any
stock restore or re-check: products, history and order items are always
left unchanged by the full-update branch. -/
theorem claim4_bundled_update_no_stock_effects (s : Store) (oid : Nat)
    (b : OrderFullBody) :
    (updateOrderFull s oid b).1.products = s.products
    ∧ (updateOrderFull s oid b).1.history = s.history
    ∧ (updateOrderFull s oid b).1.orderItems = s.orderItems :=
  ⟨updateOrderFull_products s oid b, updateOrderFull_history s oid b,
    updateOrderFull_orderItems s oid b⟩

/-- Counterexample to C4 as stated: a bundled full update moves order 1
out of `cancelled` into `pending`, yet product 1 keeps quantity 5 — the
re-check-and-decrement that the claim requires (5 - 3 = 2) does not
happen, and no history row is written. -/
theorem claim4_counterexample :
    (((updateOrderFull storeCancelled 1 bodyFull).1.orders.find?
        (fun o => o.id == 1)).map (·.status) = some "pending")
    ∧ getQty (updateOrderFull storeCancelled 1 bodyFull).1.products 1 = some 5
    ∧ (updateOrderFull storeCancelled 1 bodyFull).1.history = []
    ∧ (5 : Int) ≠ 5 - 3 := by
  decide

/-- C6 (amended): a soft-deleted product is absent from the active
products listing and its name still resolves for order-item display (the
LEFT JOIN has no soft-delete filter); but order creation does NOT reject
soft-deleted products — its stock check only requires that the product
row exists with sufficient quantity, so any valid body whose items pass
the stock check succeeds. -/
theorem claim6_soft_deleted_product_visibility (s : Store) (pid : Nat)
    (p : Product)
    (hf : s.products.find? (fun p2 => p2.id == pid) = some p)
    (hdel : p.deleted = true) :
    p ∉ listActiveProducts s
    ∧ (∀ it : OrderItem, it.product_id = pid →
        (mkItemView s.products it).product_name = some p.name)
    ∧ (∀ b : OrderInput, validateOrderInput b = none →
        stockCheck s.products b.items = none →
        (createOrder s b).2.isOk = true) := by
  refine ⟨?_, ?_, ?_⟩
  · intro hmem
    have hact := List.of_mem_filter hmem
    rw [hdel] at hact
    simp at hact
  · intro it hit
    simp only [mkItemView]
    rw [hit, hf]
    rfl
  · intro b hval hchk
    obtain ⟨v, hv⟩ := createOrder_ok s b hval hchk
    rw [hv]
    rfl

/-- Witness for C6 (amended) at a concrete store: the soft-deleted
product is not listed, resolves for display, and a valid order on it
succeeds. -/
theorem claim6_soft_deleted_product_visibility_witness :
    prodDeleted1 ∉ listActiveProducts storeC6
    ∧ (mkItemView storeC6.products ⟨1, 1, 1, 20, 0⟩).product_name =
        some "P"
    ∧ (createOrder storeC6 bodyC6).2.isOk = true := by
  have h := claim6_soft_deleted_product_visibility storeC6 1 prodDeleted1
    (by decide) (by decide)
  exact ⟨h.1, h.2.1 ⟨1, 1, 1, 20, 0⟩ (by decide), h.2.2 bodyC6 (by decide)
    (by decide)⟩

/-- Counterexample to C6 as stated: product 1 of this store is
soft-deleted, yet an order referencing it is accepted (and decrements
its stock to 4) — create_order does not reject soft-deleted products. -/
theorem claim6_counterexample :
    prodDeleted1.deleted = true
    ∧ (∃ it ∈ bodyC6.items, it.product_id = prodDeleted1.id)
    ∧ (createOrder storeC6 bodyC6).2.isOk = true
    ∧ getQty (createOrder storeC6 bodyC6).1.products 1 = some 4 := by
  decide

/-- C1: starting from any store satisfying the data invariant
(non-negative stock and item quantities), every sequence of
create_order / adjust_stock / set_order_status calls keeps every
product's quantity non-negative; each of the three operations leaves the
store exactly unchanged whenever it returns an error (no partial
decrement); and each operation rejects in the claimed situation:
create_order when some item's requested quantity exceeds the product's
current quantity, adjust_stock when reduceBy exceeds the current
quantity, and the un-cancel transition when some joined item's quantity
exceeds the current stock. -/
theorem claim1_stock_never_negative (s0 : Store) (ops : List Op)
    (h : Inv s0) :
    (∀ p ∈ (runOps s0 ops).products, 0 ≤ p.quantity)
    ∧ (∀ (s : Store) (b : OrderInput) (e : Err),
        (createOrder s b).2 = .error e → (createOrder s b).1 = s)
    ∧ (∀ (s : Store) (pid : Nat) (q : Int) (note : Option String) (e : Err),
        (adjustStock s pid q note).2 = .error e →
        (adjustStock s pid q note).1 = s)
    ∧ (∀ (s : Store) (oid : Nat) (st : String) (e : Err),
        (setOrderStatus s oid st).2 = .error e →
        (setOrderStatus s oid st).1 = s)
    ∧ (∀ (s : Store) (b : OrderInput), validateOrderInput b = none →
        (∃ it ∈ b.items, ∃ p,
          s.products.find? (fun p2 => p2.id == it.product_id) = some p ∧
          p.quantity < itemQty it) →
        ∃ e, (createOrder s b).2 = .error e)
    ∧ (∀ (s : Store) (pid : Nat) (r : Int) (note : Option String)
        (p : Product), 0 < r →
        s.products.find? (fun p2 => p2.id == pid && !p2.deleted) = some p →
        p.quantity < r →
        (adjustStock s pid r note).2 =
          .error (.insufficientStockAdjust p.quantity r))
    ∧ (∀ (s : Store) (oid : Nat) (cur : Order) (target : String),
        s.orders.find? (fun o => o.id == oid) = some cur →
        cur.status = "cancelled" → target ≠ "cancelled" →
        (∃ r ∈ joinItems s oid, r.cur < r.qty) →
        ∃ e, (setOrderStatus s oid target).2 = .error e) := by
  refine ⟨(inv_runOps ops s0 h).1, createOrder_error_unchanged,
    adjustStock_error_unchanged, setOrderStatus_error_unchanged, ?_, ?_, ?_⟩
  · intro s b hval hfail
    obtain ⟨it, hmem, p, hfp, hlt⟩ := hfail
    have hfails : itemFailsStock s.products it ≠ none := by
      unfold itemFailsStock
      simp only [hfp]
      rw [if_pos hlt]
      simp
    have hne := findSome?_isSome_of_mem hmem hfails
    cases hchk : stockCheck s.products b.items with
    | none => exact absurd hchk hne
    | some e =>
      exact ⟨e, by rw [createOrder_stockfail s b e hval hchk]⟩
  · intro s pid r note p hr hfp hlt
    rw [adjustStock_insufficient s pid r note p (by omega) hfp hlt]
  · intro s oid cur target ho hst ht hfail
    rw [setOrderStatus_uncancel s oid cur target ho hst ht]
    cases hchk : (joinItems s oid).find? (fun r => r.cur < r.qty) with
    | some r => exact ⟨_, rfl⟩
    | none =>
      obtain ⟨r, hmem, hlt⟩ := hfail
      have := List.find?_eq_none.mp hchk r hmem
      simp only [decide_eq_true_eq] at this
      exact absurd hlt this

/-- A valid order body for product 1 with quantity 3, for the C1
witness run. -/
def bodyW1 : OrderInput :=
  ⟨"anna k", "anna k", "555123456", "tbilisi 1", none,
    [⟨1, some 3, some 20, none⟩]⟩

/-- A witness run: create an order (10 to 7), cancel (back to 10),
un-cancel (7 again), a rejected write-off of 15, a write-off of 2. -/
def opsW : List Op :=
  [.create bodyW1, .setStatus 1 "cancelled", .setStatus 1 "pending",
    .adjust 1 15 none, .adjust 1 2 none]

/-- Witness for C1: after the concrete run every stored quantity is
non-negative. -/
theorem claim1_stock_never_negative_witness :
    (runOps storeA opsW).products.all
      (fun p => decide (0 ≤ p.quantity)) = true := by
  have h := (claim1_stock_never_negative storeA opsW
    (by unfold Inv ProdsNonneg ItemsNonneg; decide)).1
  rw [List.all_eq_true]
  intro p hp
  simpa using h p hp

/-- C3: when create_order passes input validation but some item fails
the pre-commit stock check (missing product row or quantity below the
request), the call returns exactly the input store together with an
error — no order row, no order_item rows, no product quantity change and
no history rows exist for the attempt — and when that error is the
insufficient-stock kind it names an actually under-stocked product of
the request, with its live stock and the requested quantity. -/
theorem claim3_create_order_atomic_failure (s : Store) (b : OrderInput)
    (hval : validateOrderInput b = none)
    (hfail : ∃ it ∈ b.items,
      s.products.find? (fun p2 => p2.id == it.product_id) = none ∨
      ∃ p, s.products.find? (fun p2 => p2.id == it.product_id) = some p ∧
        p.quantity < itemQty it) :
    ∃ e, createOrder s b = (s, .error e) ∧
      (∀ name inStock requested,
        e = .insufficientStockOrder name inStock requested →
        ∃ it ∈ b.items, ∃ p,
          s.products.find? (fun p2 => p2.id == it.product_id) = some p ∧
          p.name = name ∧ p.quantity = inStock ∧ requested = itemQty it ∧
          inStock < requested) := by
  obtain ⟨it, hmem, hcase⟩ := hfail
  have hfails : itemFailsStock s.products it ≠ none := by
    unfold itemFailsStock
    rcases hcase with hnone | ⟨p, hfp, hlt⟩
    · simp only [hnone]
      simp
    · simp only [hfp]
      rw [if_pos hlt]
      simp
  have hne := findSome?_isSome_of_mem hmem hfails
  cases hchk : stockCheck s.products b.items with
  | none => exact absurd hchk hne
  | some e =>
    refine ⟨e, createOrder_stockfail s b e hval hchk, ?_⟩
    intro name inStock requested herr
    subst herr
    obtain ⟨it2, hmem2, hit2⟩ := findSome?_mem_of_eq_some hchk
    unfold itemFailsStock at hit2
    cases hfp2 : s.products.find? (fun p2 => p2.id == it2.product_id) with
    | none =>
      simp only [hfp2] at hit2
      exact absurd hit2 (by simp)
    | some p =>
      simp only [hfp2] at hit2
      by_cases hlt2 : p.quantity < itemQty it2
      · rw [if_pos hlt2] at hit2
        simp only [Option.some.injEq, Err.insufficientStockOrder.injEq]
          at hit2
        obtain ⟨hname, hstock, hreq⟩ := hit2
        exact ⟨it2, hmem2, p, hfp2, hname, hstock, hreq.symm, by omega⟩
      · rw [if_neg hlt2] at hit2
        exact absurd hit2 (by simp)

/-- A body requesting 15 units of product 1 (stock 10), for the C3
witness. -/
def bodyC3 : OrderInput :=
  ⟨"anna k", "anna k", "555123456", "tbilisi 1", none,
    [⟨1, some 15, some 20, none⟩]⟩

/-- Witness for C3: the over-stock request leaves the store unchanged
and is not accepted. -/
theorem claim3_create_order_atomic_failure_witness :
    (createOrder storeA bodyC3).1 = storeA
    ∧ (createOrder storeA bodyC3).2.isOk = false := by
  obtain ⟨e, heq, -⟩ := claim3_create_order_atomic_failure storeA bodyC3
    (by decide)
    ⟨⟨1, some 15, some 20, none⟩, by decide,
      Or.inr ⟨prodA, by decide, by decide⟩⟩
  rw [heq]
  exact ⟨rfl, rfl⟩

/-- A live (pending) order for product 1 with quantity 3. -/
def orderPending : Order :=
  ⟨1, "anna k", "anna k", "555123456", "tbilisi 1", none, "pending"⟩

def storeLive : Store := ⟨[prodB], [orderPending], [itemB], [], 2⟩

/-- C8: deleting an order whose status is not `cancelled` first adds
each item's quantity back onto its product exactly as a cancellation
would, with one `stock_added` history row per joined item; deleting an
already-cancelled order restores nothing (no double credit); in both
cases the order row is gone, its item rows cascade away, and the call
succeeds. -/
theorem claim8_delete_order_restores_stock (s : Store) (oid : Nat)
    (o : Order)
    (ho : s.orders.find? (fun o2 => o2.id == oid) = some o)
    (hnd : ((itemsOf s oid).map (·.product_id)).Nodup)
    (hex : ∀ it ∈ itemsOf s oid,
      (s.products.find? (fun p => p.id == it.product_id)).isSome) :
    (o.status ≠ "cancelled" →
      (∀ pid, getQty (deleteOrder s oid).1.products pid =
        match getQty s.products pid, orderItemQty s oid pid with
        | some q, some dq => some (q + dq)
        | some q, none => some q
        | none, _ => none)
      ∧ (deleteOrder s oid).1.history = s.history ++
          (joinItems s oid).map
            (rowHist "stock_added" (deleteNote oid) (fun r => r.cur + r.qty)))
    ∧ (o.status = "cancelled" →
        (deleteOrder s oid).1.products = s.products
        ∧ (deleteOrder s oid).1.history = s.history)
    ∧ (deleteOrder s oid).1.orders.find? (fun o2 => o2.id == oid) = none
    ∧ itemsOf (deleteOrder s oid).1 oid = []
    ∧ (deleteOrder s oid).2 = .ok () := by
  by_cases hst : o.status = "cancelled"
  · have heq := deleteOrder_cancelled s oid o ho hst
    refine ⟨fun hne => absurd hst hne, fun _ => ⟨by rw [heq], by rw [heq]⟩,
      ?_, ?_, by rw [heq]⟩
    · rw [heq]
      exact find?_filter_id_ne s.orders oid
    · rw [heq]
      exact filter_order_id_ne s.orderItems oid
  · have heq := deleteOrder_live s oid o ho hst
    have hprod : (deleteOrder s oid).1.products =
        (restoreStockForOrder s oid (deleteNote oid)).products := by
      rw [heq]
    refine ⟨fun _ => ⟨?_, ?_⟩, fun hc => absurd hc hst, ?_, ?_, by rw [heq]⟩
    · intro pid
      rw [hprod]
      exact getQty_stockLoop s oid "stock_added" (deleteNote oid)
        (fun a b => a + b) hnd hex pid
    · have hh : (deleteOrder s oid).1.history =
          (restoreStockForOrder s oid (deleteNote oid)).history := by
        rw [heq]
      rw [hh]
      exact applyRows_history "stock_added" (deleteNote oid) _ _ s
    · rw [heq]
      show ((restoreStockForOrder s oid (deleteNote oid)).orders.filter
        (fun o2 => o2.id != oid)).find? (fun o2 => o2.id == oid) = none
      exact find?_filter_id_ne _ oid
    · rw [heq]
      show (((restoreStockForOrder s oid
          (deleteNote oid)).orderItems.filter
          (fun it => it.order_id != oid)).filter
          (fun it => it.order_id == oid)) = []
      exact filter_order_id_ne _ oid

/-- Witness for C8: deleting the live order credits product 1 back to 8;
deleting the already-cancelled order leaves its products untouched. -/
theorem claim8_delete_order_restores_stock_witness :
    getQty (deleteOrder storeLive 1).1.products 1 = some 8
    ∧ (deleteOrder storeCancelled 1).1.products = storeCancelled.products :=
  by
  have h1 := claim8_delete_order_restores_stock storeLive 1 orderPending
    (by decide) (by decide) (by decide)
  have h2 := claim8_delete_order_restores_stock storeCancelled 1
    orderCancelled (by decide) (by decide) (by decide)
  constructor
  · have hq := (h1.1 (by decide)).1 1
    rw [hq]
    decide
  · exact (h2.2.1 rfl).1

/-- C2: with the order's items referencing distinct existing products,
(i) cancelling a non-cancelled order succeeds and adds each item's
quantity back onto its product (every other product unchanged);
(ii) moving a cancelled order to any non-cancelled status, when every
item's product has sufficient stock, succeeds and subtracts each item's
quantity again; (iii) setting status `cancelled` on an already-cancelled
order changes no product quantity and writes no history — the restore
runs exactly once per cancellation. -/
theorem claim2_cancel_uncancel_roundtrip (s : Store) (oid : Nat) (o : Order)
    (ho : s.orders.find? (fun o2 => o2.id == oid) = some o)
    (hnd : ((itemsOf s oid).map (·.product_id)).Nodup)
    (hex : ∀ it ∈ itemsOf s oid,
      (s.products.find? (fun p => p.id == it.product_id)).isSome) :
    (o.status ≠ "cancelled" →
      (setOrderStatus s oid "cancelled").2.isOk = true
      ∧ ∀ pid, getQty (setOrderStatus s oid "cancelled").1.products pid =
          match getQty s.products pid, orderItemQty s oid pid with
          | some q, some dq => some (q + dq)
          | some q, none => some q
          | none, _ => none)
    ∧ (∀ target, o.status = "cancelled" → target ≠ "cancelled" →
        (∀ it ∈ itemsOf s oid, ∀ q,
          getQty s.products it.product_id = some q → it.quantity ≤ q) →
        (setOrderStatus s oid target).2.isOk = true
        ∧ ∀ pid, getQty (setOrderStatus s oid target).1.products pid =
            match getQty s.products pid, orderItemQty s oid pid with
            | some q, some dq => some (q - dq)
            | some q, none => some q
            | none, _ => none)
    ∧ (o.status = "cancelled" →
        (setOrderStatus s oid "cancelled").1.products = s.products
        ∧ (setOrderStatus s oid "cancelled").1.history = s.history) := by
  refine ⟨?_, ?_, ?_⟩
  · intro hst
    have heq := setOrderStatus_into_cancel s oid o ho hst
    rw [heq]
    obtain ⟨o2, ho2⟩ := finishStatus_isOk
      (restoreStockForOrder s oid (cancelNote oid)) oid "cancelled" o
      (by rw [restore_orders]; exact ho)
    refine ⟨by rw [ho2]; rfl, ?_⟩
    intro pid
    rw [finishStatus_products]
    exact getQty_stockLoop s oid "stock_added" (cancelNote oid)
      (fun a b => a + b) hnd hex pid
  · intro target hst ht hsuff
    have heq := setOrderStatus_uncancel s oid o target ho hst ht
    have hchk : (joinItems s oid).find? (fun r => r.cur < r.qty) = none := by
      rw [List.find?_eq_none]
      intro r hr
      obtain ⟨it, hit, p, hp, rfl⟩ := joinItems_mem_spec2 hr
      have hq : getQty s.products it.product_id = some p.quantity := by
        rw [getQty, hp]
        rfl
      have := hsuff it hit p.quantity hq
      simp only [decide_eq_true_eq]
      show ¬ (p.quantity < it.quantity)
      omega
    rw [heq, hchk]
    obtain ⟨o2, ho2⟩ := finishStatus_isOk
      (applyRows "stock_removed" (uncancelNote oid)
        (fun r => r.cur - r.qty) s (joinItems s oid)) oid target o
      (by rw [applyRows_orders]; exact ho)
    refine ⟨by rw [ho2]; rfl, ?_⟩
    intro pid
    rw [finishStatus_products]
    exact getQty_stockLoop s oid "stock_removed" (uncancelNote oid)
      (fun a b => a - b) hnd hex pid
  · intro hst
    have heq := setOrderStatus_plain s oid o "cancelled" ho
      (fun hc => hc.2 hst) (fun hc => hc.2 rfl)
    rw [heq]
    exact ⟨finishStatus_products s oid "cancelled",
      finishStatus_history s oid "cancelled"⟩

theorem updateProduct_found (s : Store) (pid : Nat) (b : ProductInput)
    (old : Product) (hval : validateProduct b = none)
    (hf : s.products.find? (fun p => p.id == pid && !p.deleted) = some old) :
    updateProduct s pid b =
      ({ s with
          products := s.products.map (fun p =>
            if p.id == pid && !p.deleted then updProd b p else p),
          history :=
            if changedFields old b = [] then s.history
            else s.history ++
              [⟨pid, "updated",
                some (String.intercalate "," (changedFields old b)),
                some (.snap (snapOf old)), some (.snap (newSnap b)),
                none⟩] },
        .ok (updProd b old)) := by
  simp only [updateProduct, hval, hf]

/-- C5: on an existing active product with a valid payload, the changed
field set is empty exactly when every field of the payload equals the
stored row after type-aware normalization (numbers compared as numbers
with the JS falsy defaults applied, text compared as trimmed strings
with empty/null/undefined all absent); an empty diff appends no history
row, and a one-field diff appends exactly one `updated` history row
whose field_name is exactly that field, carrying the full old and new
snapshots. -/
theorem claim5_update_diff_idempotent (s : Store) (pid : Nat)
    (b : ProductInput) (old : Product)
    (hval : validateProduct b = none)
    (hf : s.products.find? (fun p => p.id == pid && !p.deleted) = some old) :
    (changedFields old b = [] ↔
      (normStr (some old.name) = normStr (some b.name)
       ∧ old.price = b.price
       ∧ old.cost_price = jsNumOrNull b.cost_price
       ∧ old.quantity = jsQtyOrZero b.quantity
       ∧ normStr old.description = normStr (jsStrOrNull b.description)
       ∧ normStr old.barcode = normStr (jsStrOrNull b.barcode)
       ∧ normStr old.photo_url = normStr (jsStrOrNull b.photo_url)))
    ∧ (changedFields old b = [] →
        (updateProduct s pid b).1.history = s.history)
    ∧ (∀ f, changedFields old b = [f] →
        (updateProduct s pid b).1.history = s.history ++
          [⟨pid, "updated", some f, some (.snap (snapOf old)),
            some (.snap (newSnap b)), none⟩]) := by
  have heq := updateProduct_found s pid b old hval hf
  refine ⟨?_, ?_, ?_⟩
  · simp [changedFields, List.append_eq_nil, ite_eq_right_iff, not_not]
  · intro hcf
    rw [heq]
    show (if changedFields old b = [] then s.history else _) = s.history
    rw [if_pos hcf]
  · intro f hcf
    rw [heq]
    show (if changedFields old b = [] then s.history else s.history ++
      [⟨pid, "updated", some (String.intercalate "," (changedFields old b)),
        some (.snap (snapOf old)), some (.snap (newSnap b)), none⟩]) = _
    rw [if_neg (by rw [hcf]; simp), hcf]
    rfl

/-- The product and payloads of the C5 witness. -/
def prodU : Product := ⟨1, "Prod", 20, none, 10, none, none, none, false⟩

def storeU : Store := ⟨[prodU], [], [], [], 1⟩

/-- A payload identical to `prodU` after normalization. -/
def inputSame : ProductInput := ⟨"Prod", 20, none, some 10, none, none, none⟩

/-- The same payload with only the price changed. -/
def inputPrice : ProductInput :=
  ⟨"Prod", 25, none, some 10, none, none, none⟩

/-- Witness for C5: the identical payload writes no history row; the
one-field payload writes exactly the one `updated` row naming `price`. -/
theorem claim5_update_diff_idempotent_witness :
    (updateProduct storeU 1 inputSame).1.history = storeU.history
    ∧ (updateProduct storeU 1 inputPrice).1.history = storeU.history ++
        [⟨1, "updated", some "price", some (.snap (snapOf prodU)),
          some (.snap (newSnap inputPrice)), none⟩] := by
  have h1 := claim5_update_diff_idempotent storeU 1 inputSame prodU
    (by decide) (by decide)
  have h2 := claim5_update_diff_idempotent storeU 1 inputPrice prodU
    (by decide) (by decide)
  exact ⟨h1.2.1 (by decide), h2.2.2 "price" (by decide)⟩

/-- A pending order on product 1 with stock 7 (as after creating the
order for quantity 3 from stock 10). -/
def prodSeven : Product := ⟨1, "P", 20, none, 7, none, none, none, false⟩

def storeAfterOrder : Store := ⟨[prodSeven], [orderPending], [itemB], [], 2⟩

/-- Witness for C2, the spec scenario: cancel 7 -> 10, un-cancel
5 -> 2 on the cancelled store, and cancel-again changes nothing. -/
theorem claim2_cancel_uncancel_roundtrip_witness :
    getQty (setOrderStatus storeAfterOrder 1 "cancelled").1.products 1 =
      some 10
    ∧ getQty (setOrderStatus storeCancelled 1 "pending").1.products 1 =
        some 2
    ∧ (setOrderStatus storeCancelled 1 "cancelled").1.products =
        storeCancelled.products := by
  have h1 := claim2_cancel_uncancel_roundtrip storeAfterOrder 1 orderPending
    (by decide) (by decide) (by decide)
  have h2 := claim2_cancel_uncancel_roundtrip storeCancelled 1
    orderCancelled (by decide) (by decide) (by decide)
  refine ⟨?_, ?_, (h2.2.2 rfl).1⟩
  · have hq := (h1.1 (by decide)).2 1
    rw [hq]
    decide
  · have hq := (h2.2.1 "pending" rfl (by decide) (by decide)).2 1
    rw [hq]
    decide

end Tablero
